import Mathlib

/-!
# Verification of the kt-cli project scaffolding tool

A shallow embedding of `src/kt-cli.js` (the `KnowledgeTransferCLI` class).
The host filesystem is modelled as a finite tree of directories and files,
the process state (current working directory, console output, the
`git` subprocess environment) as an explicit `World` record, and each
method of the class as a function from `World` to `World`.  Every
filesystem call made by the code is additionally recorded in an event
trace so that ordering properties (directories created before files are
written) can be stated.

Conventions of the embedding:
* Paths are lists of components (`List String`).  `path.join(a, b)`
  appends the `/`-split components of `b` to `a`.  Node's `path.join`
  additionally normalizes `.`, `..` and empty segments; theorems about
  user-supplied names therefore carry a `goodName` hypothesis excluding
  names with such segments, where the embedding and Node would diverge.
* `process.env.HOME`, `__dirname`, `process.cwd()` and the current
  timestamp (`new Date().toISOString()`) are fields of `World`.
* `execSync` of the three git commands is modelled by a `GitEnv` of
  success flags; a failed call takes the `catch` branch of
  `initializeGit`.  The git binary's own writes (`.git/…`) are outside
  the modelled filesystem, as they are performed by an external process.
-/

namespace KtCli

/-! ## Path model -/

/-- Split a character list on `/` separators (components may be empty). -/
def splitComps : List Char → List (List Char)
  | [] => [[]]
  | c :: cs =>
    let r := splitComps cs
    if c = '/' then [] :: r
    else
      match r with
      | [] => [[c]]
      | h :: t => (c :: h) :: t

/-- The `/`-separated components of a path string. -/
def pathComps (s : String) : List String :=
  (splitComps s.data).map (fun l => String.mk l)

/-- `path.join(p, s)` for an already-split `p` and a raw string `s`. -/
def pathJoin (p : List String) (s : String) : List String :=
  p ++ pathComps s

/-- `path.basename` of an already-split path. -/
def basename (p : List String) : String :=
  p.getLastD ""

/-- Render a split path back to a string (used only in console messages). -/
def renderPath (p : List String) : String :=
  String.intercalate "/" p

/-- `iso.split('T')[0]` — the date part of an ISO-8601 timestamp. -/
def dateOnlyOf (iso : String) : String :=
  String.mk (iso.data.takeWhile (fun c => c ≠ 'T'))

/-- A project-name string whose components survive Node's path
normalization unchanged: no empty, `.` or `..` segments. -/
def goodName (s : String) : Bool :=
  (pathComps s).all (fun c => c ≠ "" && c ≠ "." && c ≠ "..")

/-! ## Filesystem trees -/

/-- A node of the host filesystem: a file with text content, or a
directory with a listing of named children (insertion-ordered). -/
inductive FsEntry where
  | file (content : String)
  | dir (entries : List (String × FsEntry))

/-- Look up a name in a directory listing. -/
def getEntry : List (String × FsEntry) → String → Option FsEntry
  | [], _ => none
  | (k, e) :: rest, n => if k = n then some e else getEntry rest n

/-- Replace the entry for a name, or append it (insertion order). -/
def setEntry : List (String × FsEntry) → String → FsEntry → List (String × FsEntry)
  | [], n, v => [(n, v)]
  | (k, e) :: rest, n, v =>
    if k = n then (k, v) :: rest else (k, e) :: setEntry rest n v

/-- Follow a component path down the tree. -/
def FsEntry.lookup : FsEntry → List String → Option FsEntry
  | e, [] => some e
  | .file _, _ :: _ => none
  | .dir es, k :: ks =>
    match getEntry es k with
    | none => none
    | some e => e.lookup ks

/-- `fs.mkdirSync(p, {recursive: true})`: create every missing directory
along `p`.  Paths running through an existing file are left unchanged
(Node would throw there; no modelled run reaches that case). -/
def FsEntry.mkdirp : FsEntry → List String → FsEntry
  | e, [] => e
  | .file c, _ :: _ => .file c
  | .dir es, k :: ks =>
    let sub := (getEntry es k).getD (.dir [])
    .dir (setEntry es k (sub.mkdirp ks))

/-- Whether `mkdirSync(p, {recursive: true})` succeeds: no existing file
on the path, and the final entry (if present) is a directory. -/
def FsEntry.canMkdirp : FsEntry → List String → Bool
  | .dir _, [] => true
  | .file _, _ => false
  | .dir es, k :: ks =>
    match getEntry es k with
    | none => true
    | some e => e.canMkdirp ks

/-- `fs.writeFileSync(p, c)`: create or overwrite the file at `p`.
Unreachable error cases (missing parent directory, parent is a file)
leave the tree unchanged (Node would throw there). -/
def FsEntry.writeFile : FsEntry → List String → String → FsEntry
  | e, [], _ => e
  | .file c, _ :: _, _ => .file c
  | .dir es, [k], c => .dir (setEntry es k (.file c))
  | .dir es, k :: k2 :: ks, c =>
    match getEntry es k with
    | none => .dir es
    | some e => .dir (setEntry es k (e.writeFile (k2 :: ks) c))

/-- `fs.readFileSync(p, 'utf8')`, as an `Option`. -/
def FsEntry.readFile (e : FsEntry) (p : List String) : Option String :=
  match e.lookup p with
  | some (.file c) => some c
  | _ => none

/-- Whether a directory exists at `p`. -/
def FsEntry.isDirAt (e : FsEntry) (p : List String) : Bool :=
  match e.lookup p with
  | some (.dir _) => true
  | _ => false

/-- Apply `f` to the subtree at `p` (identity when `p` is not reachable);
a specification-side combinator used to localize reasoning. -/
def FsEntry.updateAt : FsEntry → List String → (FsEntry → FsEntry) → FsEntry
  | e, [], f => f e
  | .file c, _ :: _, _ => .file c
  | .dir es, k :: ks, f =>
    match getEntry es k with
    | none => .dir es
    | some e => .dir (setEntry es k (e.updateAt ks f))

/-! ## Process state -/

/-- One recorded filesystem / subprocess event. -/
inductive FsOp where
  | mkdir (p : List String)
  | write (p : List String) (content : String)
  | git (cmd : String)
deriving DecidableEq

/-- Success flags for the three `execSync` git calls. -/
structure GitEnv where
  initOk : Bool
  addOk : Bool
  commitOk : Bool
deriving DecidableEq

/-- The modelled process state: filesystem, `process.cwd()`,
`__dirname`, `process.env.HOME`, the current ISO timestamp, the git
environment, console output/error lines and the event trace. -/
@[ext]
structure World where
  fs : FsEntry
  cwd : List String
  dirname : List String
  home : List String
  now : String
  git : GitEnv
  out : List String
  err : List String
  trace : List FsOp

def existsSync (w : World) (p : List String) : Bool :=
  (w.fs.lookup p).isSome

def mkdirSync (w : World) (p : List String) : World :=
  { w with fs := w.fs.mkdirp p, trace := w.trace ++ [.mkdir p] }

def writeFileSync (w : World) (p : List String) (c : String) : World :=
  { w with fs := w.fs.writeFile p c, trace := w.trace ++ [.write p c] }

def consoleLog (w : World) (s : String) : World :=
  { w with out := w.out ++ [s] }

def consoleError (w : World) (s : String) : World :=
  { w with err := w.err ++ [s] }

/-! ## JSON values and `JSON.stringify(v, null, 2)` -/

/-- The JSON values occurring in the tool's generated manifests. -/
inductive Json where
  | str (s : String)
  | bool (b : Bool)
  | obj (entries : List (String × Json))

/-- Hex digit used by `JSON.stringify`'s `\u00XX` escapes. -/
def hexDigit (n : Nat) : Char :=
  if n < 10 then Char.ofNat (48 + n) else Char.ofNat (87 + n)

/-- `JSON.stringify`'s escaping of a single string character. -/
def escChar (c : Char) : List Char :=
  if c = '"' then ['\\', '"']
  else if c = '\\' then ['\\', '\\']
  else if c = '\n' then ['\\', 'n']
  else if c = '\r' then ['\\', 'r']
  else if c = '\t' then ['\\', 't']
  else if c = '\x08' then ['\\', 'b']
  else if c = '\x0c' then ['\\', 'f']
  else if c.toNat < 32 then
    ['\\', 'u', '0', '0', hexDigit (c.toNat / 16), hexDigit (c.toNat % 16)]
  else [c]

/-- A JSON string literal with escapes. -/
def quoteJson (s : String) : String :=
  "\"" ++ String.mk ((s.data.map escChar).flatten) ++ "\""

/-- `n` spaces. -/
def indentStr (n : Nat) : String :=
  String.mk (List.replicate n ' ')

mutual

/-- `JSON.stringify(v, null, 2)` at nesting level `lvl`. -/
def renderJson : Json → Nat → String
  | .str s, _ => quoteJson s
  | .bool b, _ => if b then "true" else "false"
  | .obj [], _ => "\x7b\x7d"
  | .obj (e :: es), lvl =>
    "\x7b\n" ++ renderEntries (e :: es) (lvl + 1) ++ "\n" ++ indentStr (2 * lvl) ++ "\x7d"

/-- The members of a non-empty object, one per line, comma-separated. -/
def renderEntries : List (String × Json) → Nat → String
  | [], _ => ""
  | [(k, v)] , lvl => indentStr (2 * lvl) ++ quoteJson k ++ ": " ++ renderJson v lvl
  | (k, v) :: e :: es, lvl =>
    indentStr (2 * lvl) ++ quoteJson k ++ ": " ++ renderJson v lvl ++ ",\n" ++
      renderEntries (e :: es) lvl

end

/-- Look up a top-level member of a JSON object. -/
def jsonGet : List (String × Json) → String → Option Json
  | [], _ => none
  | (k, v) :: rest, n => if k = n then some v else jsonGet rest n

/-- The `name` (or any) field of a JSON value, when it is an object. -/
def Json.lookup : Json → String → Option Json
  | .obj es, n => jsonGet es n
  | _, _ => none

/-! ## Template generators (from the source, §`generate*` methods) -/

/-- `this.version` in the `KnowledgeTransferCLI` constructor. -/
def version : String := "1.0.0-alpha"

/-- The object literal passed to `JSON.stringify` in `generatePackageJson`. -/
def packageJsonValue (projectName : String) : Json :=
  .obj [("name", .str projectName),
        ("version", .str ("1.0.0")),
        ("description", .str (projectName ++ " - Built with Knowledge Transfer Protocols")),
        ("main", .str ("src/server.js")),
        ("scripts", .obj [("start", .str ("node src/server.js")),
                          ("dev", .str ("nodemon src/server.js")),
                          ("test", .str ("node tests/test-server.js"))]),
        ("dependencies", .obj [("express", .str ("^4.18.2"))]),
        ("devDependencies", .obj [("nodemon", .str ("^3.0.0"))]),
        ("kt_protocols", .obj [("version", .str ("1.0.0")),
                               ("compliance", .str ("enforced"))])]

def generatePackageJson (projectName : String) : String :=
  renderJson (packageJsonValue projectName) 0

/-- The `projectDNA` object literal in `generateAIContext`. -/
def projectDNAValue (projectName : String) (now : String) : Json :=
  .obj [("project", .str projectName),
        ("type", .str ("kt-cli-project")),
        ("version", .str ("1.0.0")),
        ("generated", .str now),
        ("protocols", .obj [("codeOrganization", .str ("1.0.0")),
                            ("gitWorkflow", .str ("1.0.0")),
                            ("documentation", .str ("1.0.0")),
                            ("protocolEvolution", .str ("1.0.0"))]),
        ("aiContext", .obj [("comprehensive", .bool true),
                            ("selfContained", .bool true),
                            ("lastUpdated", .str now)]),
        ("technology", .obj [("runtime", .str ("node.js")),
                             ("framework", .str ("express")),
                             ("database", .str ("json-files"))]),
        ("patterns", .obj [("architecture", .str ("modular-monolith")),
                           ("testing", .str ("unit-tests")),
                           ("documentation", .str ("comprehensive"))])]

/-! ## Literal template text (extracted from the source template literals) -/

def aiContextTemplate (projectName : String) (now : String) : String :=
  "# Complete AI Assistant Context Package\n# Project: " ++ projectName ++ "\n# Generated: " ++ now ++ "\n# Knowledge Transfer Protocol Version: 1.0.0\n\n---\n\n## 🎯 PROJECT OVERVIEW\n\n**Name:** " ++ projectName ++ "  \n**Type:** Node.js Express Web Application  \n**Purpose:** Knowledge Transfer Protocol validation and testing system  \n**Technology Stack:** Node.js, Express.js, JSON file storage  \n**AI Context:** Complete - Everything needed for development is in this file  \n\n---\n\n## 🧠 COMPLETE KNOWLEDGE TRANSFER PROTOCOLS\n\n### 📁 1. CODE ORGANIZATION FRAMEWORK\n*Universal Project Structure - Apply consistently across all projects*\n\n#### Standard Directory Structure\n```\n" ++ projectName ++ "/\n├── src/                    # Core application logic\n│   └── server.js          # Main Express server entry point\n├── tests/                  # Testing framework and test files\n│   └── test-server.js     # Comprehensive test suite\n├── docs/                   # Documentation and guides\n│   ├── README.md          # Project documentation\n│   └── API_DOCUMENTATION.md # API reference\n├── public/                 # Static assets and frontend files\n├── data/                   # Data files and storage\n├── scripts/                # Build, deployment, and utility scripts\n├── BestPractices/          # Knowledge Transfer Protocols\n│   ├── Generic/           # Universal best practices\n│   └── ProjectSpecific/   # Project-specific knowledge\n├── .kt-context/           # AI assistant context and project memory\n│   ├── ai-context.md      # This file - Complete AI context\n│   └── project-dna.json   # Project metadata\n├── package.json           # Dependencies and scripts\n├── README.md              # Project overview\n└── .gitignore            # Git ignore patterns\n```\n\n#### Core Organization Principles\n1. **Separation of Concerns**: Each directory has a single, clear purpose\n2. **Predictable Structure**: Anyone can navigate the project intuitively\n3. **Scalable Organization**: Structure grows gracefully with project complexity\n4. **Consistent Naming**: Use clear, descriptive directory and file names\n5. **Documentation Co-location**: Keep docs close to relevant code\n\n#### Implementation Guidelines\n- Place all business logic in `src/`\n- Keep all tests in `tests/` with parallel structure to `src/`\n- Document everything in `docs/` with clear, practical examples\n- Store static assets in `public/`\n- Use `data/` for any data files, databases, or storage\n- Put build/deployment scripts in `scripts/`\n- Maintain Knowledge Transfer Protocols in `BestPractices/`\n\n---\n\n### 📝 2. GIT WORKFLOW PATTERNS\n*Professional Version Control Standards for Quality and Collaboration*\n\n#### Conventional Commit Message Format\n```\n<type>(<scope>): <description>\n\n[optional body explaining the what and why]\n\n[optional footer(s)]\n```\n\n#### Commit Types (ALWAYS use these)\n- **feat**: New features or functionality\n- **fix**: Bug fixes and error corrections\n- **docs**: Documentation changes only\n- **style**: Code formatting (no logic changes)\n- **refactor**: Code restructuring (no functionality change)\n- **test**: Adding or updating tests\n- **chore**: Maintenance tasks, dependencies, tooling\n\n#### Commit Examples\n```\nfeat(auth): add user authentication system with JWT tokens\nfix(api): resolve data validation error in user registration\ndocs(readme): update installation instructions for new Node version\nstyle(server): format code according to ESLint rules\nrefactor(database): extract connection logic into separate module\ntest(auth): add comprehensive tests for login functionality\nchore(deps): update Express to version 4.18.2\n```\n\n#### Branch Strategy\n- **main**: Production-ready code only\n- **feature/feature-name**: New feature development\n- **fix/bug-description**: Bug fixes\n- **docs/documentation-update**: Documentation improvements\n\n#### Git Best Practices\n1. **Commit Early and Often**: Small, focused commits are better\n2. **Write Descriptive Messages**: Future developers (and AI) need context\n3. **Review Before Committing**: Check changes with `git diff`\n4. **One Concern Per Commit**: Don't mix features, fixes, and style changes\n5. **Use Pull Requests**: Enable code review and discussion\n\n---\n\n### 📚 3. DOCUMENTATION FRAMEWORK\n*Knowledge Capture and Transfer Standards for Seamless Understanding*\n\n#### Documentation Types and Standards\n\n##### Project Documentation\n- **README.md**: Project overview, setup instructions, usage examples\n- **API_DOCUMENTATION.md**: Complete API endpoint documentation with examples\n- **CHANGELOG.md**: Version history and notable changes\n- **CONTRIBUTING.md**: Guidelines for contributors\n\n##### Code Documentation\n- **Inline Comments**: Explain complex logic, not obvious code\n- **JSDoc Comments**: Document all functions, classes, and modules\n- **Architecture Decision Records (ADRs)**: Document important decisions\n\n##### Process Documentation\n- **Development Workflows**: Step-by-step development processes\n- **Deployment Procedures**: How to deploy and release\n- **Testing Strategies**: How to test features and bug fixes\n\n#### Documentation Writing Guidelines\n1. **Use Clear, Concise Language**: Write for humans and AI assistants\n2. **Include Practical Examples**: Show, don't just tell\n3. **Keep Current**: Update docs when code changes\n4. **Structure Logically**: Use consistent headings and organization\n5. **Test Examples**: Ensure all code examples actually work\n\n#### Markdown Best Practices\n- Use consistent heading hierarchy (# ## ### ####)\n- Include code examples with proper syntax highlighting\n- Add tables for structured information\n- Use lists for step-by-step procedures\n- Include links to related documentation\n\n#### AI Assistant Integration Standards\nDocumentation must enable AI assistants to:\n- Understand project context immediately upon reading\n- Provide accurate guidance based on current state\n- Maintain consistency across development sessions\n- Support effective handoffs between different AI assistants\n- Generate appropriate code following established patterns\n\n---\n\n### 🔄 4. PROTOCOL EVOLUTION FRAMEWORK\n*Continuous Improvement and Knowledge Sharing System*\n\n#### Evolution Principles\n1. **Experience-Driven**: Protocols improve based on real-world usage\n2. **Evidence-Based**: Changes supported by measurable outcomes\n3. **Community-Informed**: Shared learnings across projects and teams\n4. **AI-Optimized**: Enhanced for AI assistant understanding and application\n\n#### Feedback Collection Methods\n- Track development velocity and code quality metrics\n- Measure time to understanding for new team members\n- Monitor AI assistant effectiveness and consistency\n- Document friction points and successful patterns\n- Record knowledge transfer success rates\n\n#### Protocol Update Process\n1. **Identify Improvement Opportunities**: From experience and feedback\n2. **Test Changes**: Validate improvements in real projects\n3. **Document Results**: Measure impact and effectiveness\n4. **Update Protocols**: Incorporate proven improvements\n5. **Distribute Updates**: Share via CLI and documentation\n\n#### Success Metrics\n- **Developer Onboarding Time**: How quickly new team members become productive\n- **AI Assistant Effectiveness**: Quality and consistency of AI-generated code\n- **Code Review Efficiency**: Time spent on reviews and issues found\n- **Project Handoff Success**: Seamless transitions between developers/teams\n- **Knowledge Retention**: Information preserved across project lifecycle\n\n---\n\n## 🤖 AI ASSISTANT BEHAVIOR GUIDELINES\n\n### Primary Directives (NEVER DEVIATE FROM THESE)\n1. **Always Follow Knowledge Transfer Protocols**: Apply all four frameworks consistently\n2. **Document Everything**: No code without corresponding documentation\n3. **Use Conventional Commits**: All changes must follow git workflow patterns\n4. **Maintain Project Structure**: Keep files in correct directories per organization framework\n5. **Generate Comprehensive Context**: Update this file as project evolves\n\n### Development Standards (APPLY TO ALL CODE)\n- **Write Clean Code**: Self-documenting with clear variable and function names\n- **Add JSDoc Comments**: Document all functions, classes, and complex logic\n- **Include Error Handling**: Proper try/catch blocks and input validation\n- **Create Tests**: Test new functionality before considering it complete\n- **Update Documentation**: Keep README and API docs current with changes\n- **Follow Established Patterns**: Maintain consistency with existing code style\n\n### Knowledge Capture Requirements\n- **Document Decisions**: Explain why choices were made in comments\n- **Explain Complex Logic**: Add inline comments for non-obvious code\n- **Create Usage Examples**: Show how to use new functions/features\n- **Note Pattern Deviations**: Document any departures from standard practices\n- **Record Successful Solutions**: Capture working approaches for reuse\n\n### Quality Assurance Checklist\nBefore completing any development task:\n- [ ] Code follows project structure (src/, tests/, docs/ organization)\n- [ ] All functions have JSDoc documentation\n- [ ] Tests written and passing for new functionality\n- [ ] README.md updated with new features or changes\n- [ ] Git commit follows conventional format\n- [ ] Code style consistent with existing patterns\n- [ ] Error handling implemented appropriately\n- [ ] API documentation updated if endpoints changed\n\n---\n\n## 🎯 CURRENT PROJECT STATE\n\n**Initialization Status**: Complete  \n**Express Server**: Functional and ready for development  \n**Testing Framework**: Configured with basic test structure  \n**Documentation**: Base structure created, ready for updates  \n**Knowledge Transfer Protocols**: All frameworks active and ready  \n**AI Context**: This comprehensive file generated and current  \n\n**Current Files:**\n- `src/server.js`: Express server with basic routing\n- `tests/test-server.js`: Test framework setup\n- `package.json`: Dependencies and npm scripts configured\n- `README.md`: Project overview and setup instructions\n- `.kt-context/ai-context.md`: This complete context file\n- `.kt-context/project-dna.json`: Project metadata\n\n**Next Development Steps:**\n1. Implement core application features following protocols\n2. Add comprehensive API endpoints with documentation\n3. Expand test coverage for all functionality\n4. Update project documentation as features are added\n5. Maintain this AI context file with project evolution\n\n---\n\n## 🔄 KNOWLEDGE EVOLUTION TRACKING\n\n### Protocol Effectiveness Notes\n*Update these as you work on the project:*\n\n- **Code Organization**: [Track how well the structure works]\n- **Git Workflow**: [Note any commit message or branching issues]\n- **Documentation**: [Record what documentation approaches work best]\n- **AI Understanding**: [Note any confusion or areas needing clarification]\n\n### Lessons Learned\n*Capture insights for future protocol improvements:*\n\n- **Successful Patterns**: [What worked really well?]\n- **Friction Points**: [What caused delays or confusion?]\n- **Process Improvements**: [What would make development smoother?]\n- **AI Collaboration**: [How can AI assistance be more effective?]\n\n---\n\n## 🎯 INSTRUCTIONS FOR AI ASSISTANTS\n\n### Immediate Actions Upon Reading This File\n1. **Acknowledge Understanding**: Confirm you've read and understood all protocols\n2. **Apply Standards Immediately**: Use these frameworks for all subsequent work\n3. **Maintain Consistency**: Keep all code and documentation aligned with these standards\n4. **Ask for Clarification**: Request clarification if any protocol is unclear\n5. **Update Context**: Modify this file as the project evolves\n\n### Development Session Protocol\n1. **Start Each Session**: Review current project state and recent changes\n2. **Plan Changes**: Consider impact on structure, docs, and tests\n3. **Implement Systematically**: Follow protocols for all code changes\n4. **Document Thoroughly**: Update all relevant documentation\n5. **Update Context**: Modify this file to reflect new project state\n\n### Handoff Preparation\n1. **Update This File**: Ensure all recent changes are documented\n2. **Verify Documentation**: Check that all docs are current and accurate\n3. **Run Tests**: Ensure all functionality is working correctly\n4. **Commit Changes**: Use proper conventional commit messages\n5. **Generate Summary**: Create brief summary of session accomplishments\n\n---\n\n**This file contains everything needed for immediate, effective AI-assisted development. No external references required.**"

def generateReadme (projectName : String) : String :=
  "# " ++ projectName ++ "\n\n**Built with Knowledge Transfer Protocols v1.0**\n\n## 🎯 Project Overview\n\n[Project description - update as needed]\n\n## 🚀 Quick Start\n\n```bash\n# Install dependencies\nnpm install\n\n# Start development server\nnpm run dev\n\n# Run tests\nnpm test\n```\n\n## 📁 Project Structure\n\nFollowing CodeOrganizationFramework.md:\n\n```\n" ++ projectName ++ "/\n├── src/                    # Core application logic\n├── tests/                  # Testing framework\n├── docs/                   # Documentation\n├── public/                 # Frontend assets\n├── data/                   # Data storage\n├── BestPractices/          # Knowledge Transfer Protocols\n└── .kt-context/           # AI context and project memory\n```\n\n## 🤖 AI Assistant Ready\n\nThis project includes comprehensive AI context for seamless development:\n\n```bash\nkt-cli ai prepare    # Share context with AI assistant\nkt-cli ai validate   # Test AI understanding\nkt-cli ai handoff    # Generate handoff package\n```\n\n## 📚 Knowledge Transfer Protocols\n\n- **CodeOrganizationFramework.md** - Project structure standards\n- **GitWorkflowPatterns.md** - Version control best practices  \n- **DocumentationFramework.md** - Knowledge capture standards\n\n## 🔄 Development Workflow\n\n1. **Follow protocols** - Apply all standards consistently\n2. **Document changes** - Update README and docs as you build\n3. **Test thoroughly** - Maintain comprehensive test coverage\n4. **Commit conventionally** - Use conventional commit format\n\n---\n\n**Generated with kt-cli v1.0.0 - Knowledge Transfer Protocol Evolution System**\n"

def generateGitignore : String :=
  "# Dependencies\nnode_modules/\nnpm-debug.log*\n\n# Runtime\n*.log\n.env\n.env.local\n\n# Build outputs\ndist/\nbuild/\n\n# IDE\n.vscode/\n.idea/\n*.swp\n*.swo\n\n# OS\n.DS_Store\nThumbs.db\n\n# kt-cli\n.kt-context/private/\n"

def serverTemplatePre : String :=
  "/**\n * "

def serverTemplateMid : String :=
  " - Main Express Server\n * \n * @fileoverview Main server application built with Knowledge Transfer Protocols\n * @version 1.0.0\n * @author [Your name]\n * @since "

def serverTemplateSuf : String :=
  "\n * \n * @requires express Express.js web framework\n * \n * @example\n * // Start the server\n * node src/server.js\n * // Access at http://localhost:3000\n */\n\nconst express = require('express');\nconst path = require('path');\n\nconst app = express();\nconst port = process.env.PORT || 3000;\n\n// Middleware\napp.use(express.json());\napp.use(express.static(path.join(__dirname, '../public')));\n\n// Routes\napp.get('/api/health', (req, res) => \x7b\n  res.json(\x7b \n    status: 'ok', \n    timestamp: new Date().toISOString(),\n    protocols: 'Knowledge Transfer v1.0'\n  \x7d);\n\x7d);\n\n// Start server\napp.listen(port, () => \x7b\n  console.log(`🚀 Server running at http://localhost:$\x7bport\x7d`);\n  console.log(`📊 Built with Knowledge Transfer Protocols v1.0`);\n\x7d);\n\nmodule.exports = app;\n"

def generateServerTemplate (cwdBase : String) (dateOnly : String) : String :=
  serverTemplatePre ++ cwdBase ++ serverTemplateMid ++ dateOnly ++ serverTemplateSuf

def generateTestTemplate : String :=
  "/**\n * Server Tests\n * \n * @fileoverview Test suite for main server functionality\n * @follows Knowledge Transfer Protocol testing standards\n */\n\nconst http = require('http');\n\n/**\n * Simple test runner following Knowledge Transfer Protocols\n */\nclass TestRunner \x7b\n  constructor() \x7b\n    this.tests = [];\n    this.results = \x7b passed: 0, failed: 0, total: 0 \x7d;\n  \x7d\n\n  /**\n   * Add test case\n   * @param \x7bstring\x7d name - Test name\n   * @param \x7bFunction\x7d testFn - Test function\n   */\n  test(name, testFn) \x7b\n    this.tests.push(\x7b name, testFn \x7d);\n  \x7d\n\n  /**\n   * Run all tests\n   */\n  async run() \x7b\n    console.log('🧪 Running tests...');\n    \n    for (const \x7b name, testFn \x7d of this.tests) \x7b\n      try \x7b\n        await testFn();\n        console.log(`✅ $\x7bname\x7d`);\n        this.results.passed++;\n      \x7d catch (error) \x7b\n        console.log(`❌ $\x7bname\x7d: $\x7berror.message\x7d`);\n        this.results.failed++;\n      \x7d\n      this.results.total++;\n    \x7d\n    \n    console.log(`\\n📊 Results: $\x7bthis.results.passed\x7d/$\x7bthis.results.total\x7d passed`);\n    \n    if (this.results.failed > 0) \x7b\n      process.exit(1);\n    \x7d\n  \x7d\n\x7d\n\n// Test suite\nconst runner = new TestRunner();\n\nrunner.test('Server health endpoint', async () => \x7b\n  const options = \x7b\n    hostname: 'localhost',\n    port: 3000,\n    path: '/api/health',\n    method: 'GET'\n  \x7d;\n  \n  return new Promise((resolve, reject) => \x7b\n    const req = http.request(options, (res) => \x7b\n      if (res.statusCode === 200) \x7b\n        resolve();\n      \x7d else \x7b\n        reject(new Error(`Expected 200, got $\x7bres.statusCode\x7d`));\n      \x7d\n    \x7d);\n    \n    req.on('error', reject);\n    req.end();\n  \x7d);\n\x7d);\n\n// Run tests\nrunner.run();\n"

def generateAPIDocsTemplate : String :=
  "# API Documentation\n\n**Generated with Knowledge Transfer Protocols v1.0**\n\n## Endpoints\n\n### GET /api/health\nHealth check endpoint\n\n**Response:**\n```json\n\x7b\n  \"status\": \"ok\",\n  \"timestamp\": \"2025-09-09T12:00:00.000Z\",\n  \"protocols\": \"Knowledge Transfer v1.0\"\n\x7d\n```\n\n---\n\n**Documentation follows DocumentationFramework.md standards**\n"

def codeOrgContent : String :=
  "# Code Organization Framework\n\n## Universal Project Structure\n\nThis framework provides proven directory organization patterns that work across any technology stack.\n\n### Core Principles\n\n1. **Separation of Concerns**: Each directory has a single, clear purpose\n2. **Predictable Structure**: Anyone can navigate the project intuitively\n3. **Scalable Organization**: Structure grows gracefully with project complexity\n\n### Standard Directory Structure\n\n```\nproject-root/\n├── src/                    # Core application logic\n├── tests/                  # Testing framework and test files\n├── docs/                   # Documentation and guides\n├── public/                 # Static assets and frontend files\n├── data/                   # Data files and storage\n├── scripts/                # Build, deployment, and utility scripts\n├── BestPractices/          # Knowledge Transfer Protocols\n│   ├── Generic/           # Universal best practices\n│   └── ProjectSpecific/   # Project-specific knowledge\n└── .kt-context/           # AI assistant context and project memory\n```\n\n### Implementation Guidelines\n\n- Keep related functionality together\n- Use clear, descriptive naming\n- Document directory purposes in README files\n- Maintain consistent structure across projects\n\nThis organization ensures any developer (or AI assistant) can quickly understand and navigate the codebase.\n"

def gitWorkflowContent : String :=
  "# Git Workflow Patterns\n\n## Professional Version Control Standards\n\nThis document defines proven Git workflows that ensure code quality and seamless collaboration.\n\n### Conventional Commits\n\nUse descriptive commit messages that follow this pattern:\n\n```\n<type>(<scope>): <description>\n\n[optional body]\n\n[optional footer(s)]\n```\n\n#### Commit Types\n- **feat**: New features\n- **fix**: Bug fixes\n- **docs**: Documentation changes\n- **style**: Code formatting (no logic changes)\n- **refactor**: Code restructuring (no functionality change)\n- **test**: Adding or updating tests\n- **chore**: Maintenance tasks\n\n#### Examples\n```\nfeat(auth): add user authentication system\nfix(api): resolve data validation error\ndocs(readme): update installation instructions\n```\n\n### Branch Strategy\n\n- **main**: Production-ready code\n- **feature/feature-name**: New feature development\n- **fix/bug-description**: Bug fixes\n- **docs/documentation-update**: Documentation improvements\n\n### Best Practices\n\n1. Commit early and often\n2. Write descriptive commit messages\n3. Review changes before committing\n4. Keep commits focused on single changes\n5. Use pull requests for code review\n\nThese patterns ensure clear project history and enable effective AI assistant understanding of development progression.\n"

def docsFrameworkContent : String :=
  "# Documentation Framework\n\n## Knowledge Capture and Transfer Standards\n\nThis framework ensures comprehensive documentation that enables seamless project understanding and handoffs.\n\n### Documentation Types\n\n#### 1. Project Documentation\n- **README.md**: Project overview, setup, and usage\n- **API_DOCUMENTATION.md**: API endpoints and usage examples\n- **CHANGELOG.md**: Version history and notable changes\n\n#### 2. Code Documentation\n- Inline comments for complex logic\n- Function and class documentation\n- Architecture decision records (ADRs)\n\n#### 3. Process Documentation\n- Development workflows\n- Deployment procedures\n- Testing strategies\n\n### Documentation Standards\n\n#### Writing Guidelines\n- Use clear, concise language\n- Include practical examples\n- Keep documentation current with code changes\n- Structure information logically\n\n#### Markdown Best Practices\n- Use consistent heading hierarchy\n- Include code examples with syntax highlighting\n- Add tables for structured information\n- Use lists for step-by-step procedures\n\n### AI Assistant Integration\n\nDocumentation should enable AI assistants to:\n- Understand project context immediately\n- Provide accurate guidance\n- Maintain consistency across sessions\n- Support effective handoffs between developers\n\n### Maintenance\n\n- Review documentation during code reviews\n- Update docs when features change\n- Archive outdated information\n- Validate examples regularly\n\nThis framework ensures knowledge is preserved and accessible to both human developers and AI assistants.\n"

def protocolEvolutionContent : String :=
  "# Protocol Evolution Framework\n\n## Continuous Improvement and Knowledge Sharing System\n\nThis framework enables Knowledge Transfer Protocols to evolve and improve through practical application.\n\n### Evolution Principles\n\n1. **Experience-Driven**: Protocols improve based on real-world usage\n2. **Evidence-Based**: Changes supported by data and outcomes\n3. **Community-Informed**: Shared learnings across projects and teams\n4. **AI-Optimized**: Enhanced for AI assistant understanding and application\n\n### Feedback Collection\n\n#### Development Insights\n- What patterns worked well?\n- Which processes caused friction?\n- Where did handoffs fail?\n- How did AI assistance perform?\n\n#### Project Outcomes\n- Development velocity metrics\n- Code quality indicators\n- Team satisfaction scores\n- Knowledge transfer effectiveness\n\n### Protocol Updates\n\n#### Version Control\n- Semantic versioning for protocol changes\n- Clear migration guides between versions\n- Backward compatibility considerations\n- Deprecation timelines for outdated practices\n\n#### Distribution\n- Centralized protocol repository\n- Automated updates through CLI tools\n- Project-specific customizations\n- Cross-project learning integration\n\n### Measurement and Analytics\n\n#### Success Metrics\n- Time to project understanding for new team members\n- AI assistant effectiveness ratings\n- Code review efficiency\n- Project handoff success rates\n\n#### Continuous Monitoring\n- Protocol compliance tracking\n- Outcome correlation analysis\n- Best practice identification\n- Knowledge gap detection\n\n### Community Contribution\n\n- Protocol improvement proposals\n- Case study sharing\n- Tool enhancement suggestions\n- Success story documentation\n\nThis framework ensures Knowledge Transfer Protocols remain current, effective, and continuously improving through collective experience.\n"

def helpText (ver : String) : String :=
  "\nKnowledge Transfer CLI v" ++ ver ++ "\nAI-Optimized Protocol Management System\n\nUSAGE:\n  kt-cli <command> [options]\n\nCOMMANDS:\n  new <name>      Create new project with Knowledge Transfer Protocols\n  ai prepare      Generate context for AI assistant\n  ai validate     Test AI understanding of protocols\n  ai handoff      Create handoff package for new AI session\n  learn capture   Capture lessons learned during development\n  sync            Update to latest protocols\n  version         Show version information\n  help            Show this help\n\nEXAMPLES:\n  kt-cli new my-awesome-app\n  kt-cli ai prepare\n  kt-cli sync protocols\n\nFor more information, visit:\nhttps://github.com/knowledge-transfer-protocols/kt-cli\n"

/-! ## The CLI operations -/

/-- The content of `data/README.md` (inline literal in the source). -/
def dataReadmeContent : String := "# Data Directory\n\nStore data files and databases here.\n"

/-- The `dirs` array of `createProjectStructure`. -/
def projectDirs : List String :=
  ["src", "tests", "docs", "public", "data",
   "BestPractices/Generic", "BestPractices/ProjectSpecific", ".kt-context"]

/-- The `files` object of `createProjectStructure` (relative path,
content), in source order.  `generatePackageJson` and `generateReadme`
receive `path.basename(projectPath)`; the server template reads
`process.cwd()` and the clock. -/
def projectFiles (w : World) (projectPath : List String) : List (String × String) :=
  [("package.json", generatePackageJson (basename projectPath)),
   ("README.md", generateReadme (basename projectPath)),
   (".gitignore", generateGitignore),
   ("src/server.js", generateServerTemplate (basename w.cwd) (dateOnlyOf w.now)),
   ("tests/test-server.js", generateTestTemplate),
   ("docs/API_DOCUMENTATION.md", generateAPIDocsTemplate),
   ("data/README.md", dataReadmeContent)]

def createProjectStructure (w : World) (projectPath : List String) : World :=
  let w1 := mkdirSync w projectPath
  let w2 := projectDirs.foldl (fun acc d => mkdirSync acc (pathJoin projectPath d)) w1
  (projectFiles w2 projectPath).foldl
    (fun acc fc => writeFileSync acc (pathJoin projectPath fc.1) fc.2) w2

/-- The recursion of `copyDirectory` over a directory listing read by
`readdirSync`.  The listing of the source is taken as a snapshot, which
agrees with the code whenever the destination does not overlap the
source (true of every modelled run: the destination is inside the fresh
project directory). -/
def copyList (w : World) (dest : List String) : List (String × FsEntry) → World
  | [] => w
  | (n, .file c) :: rest => copyList (writeFileSync w (dest ++ [n]) c) dest rest
  | (n, .dir sub) :: rest =>
    let w1 := if existsSync w (dest ++ [n]) then w else mkdirSync w (dest ++ [n])
    copyList (copyList w1 (dest ++ [n]) sub) dest rest

def copyDirectory (w : World) (src dest : List String) : World :=
  let w1 := if existsSync w dest then w else mkdirSync w dest
  match w1.fs.lookup src with
  | some (.dir items) => copyList w1 dest items
  | _ => w1

def createBasicProtocols (w : World) (targetPath : List String) : World :=
  let w1 := if existsSync w targetPath then w else mkdirSync w targetPath
  let w2 := writeFileSync w1 (pathJoin targetPath ("CodeOrganizationFramework.md")) codeOrgContent
  let w3 := writeFileSync w2 (pathJoin targetPath ("GitWorkflowPatterns.md")) gitWorkflowContent
  let w4 := writeFileSync w3 (pathJoin targetPath ("DocumentationFramework.md")) docsFrameworkContent
  let w5 := writeFileSync w4 (pathJoin targetPath ("ProtocolEvolutionFramework.md")) protocolEvolutionContent
  consoleLog w5 ("✅ Created basic Knowledge Transfer Protocols")

def setupProtocols (w : World) (projectPath : List String) : World :=
  let w1 := consoleLog w ("📚 Setting up Knowledge Transfer Protocols...")
  let sourcePath := pathJoin w1.dirname ("../BestPractices/Generic")
  let targetPath := pathJoin projectPath ("BestPractices/Generic")
  if existsSync w1 sourcePath then copyDirectory w1 sourcePath targetPath
  else createBasicProtocols w1 targetPath

def generateAIContext (w : World) (projectPath : List String) (projectName : String) : World :=
  let w1 := consoleLog w ("🤖 Generating comprehensive AI Assistant context...")
  let aiContext := aiContextTemplate projectName w1.now
  let contextDir := pathJoin projectPath (".kt-context")
  let w2 := if existsSync w1 contextDir then w1 else mkdirSync w1 contextDir
  let w3 := writeFileSync w2 (pathJoin contextDir ("ai-context.md")) aiContext
  let w4 := writeFileSync w3 (pathJoin projectPath (".kt-context/project-dna.json"))
    (renderJson (projectDNAValue projectName w3.now) 0)
  let w5 := consoleLog w4 ("✅ Complete AI context generated: .kt-context/ai-context.md")
  let w6 := consoleLog w5 ("📝 Simple AI prompt: \"Please read and apply the context from .kt-context/ai-context.md\"")
  consoleLog w6 ("🎯 This file contains everything - no external references needed!")

/-- The message of the `catch` branch of `initializeGit`. -/
def gitWarnMsg : String := "⚠️  Git initialization skipped (git not available)"

def gitCommitCmd (projectName : String) : String :=
  "git commit -m \"feat: initial " ++ projectName ++ " setup with Knowledge Transfer Protocols\""

/-- `initializeGit`: chdir into the project, attempt the three git
subprocess calls (each recorded in the trace when attempted), catch any
failure as a warning, and restore the working directory in `finally`. -/
def initializeGit (w : World) (projectPath : List String) (projectName : String) : World :=
  let originalCwd := w.cwd
  let w1 := { w with cwd := projectPath }
  let wa := { w1 with trace := w1.trace ++ [.git ("git init")] }
  let w2 :=
    if w.git.initOk then
      let wb := { wa with trace := wa.trace ++ [.git ("git add .")] }
      if w.git.addOk then
        let wc := { wb with trace := wb.trace ++ [.git (gitCommitCmd projectName)] }
        if w.git.commitOk then
          consoleLog wc ("📝 Git repository initialized with conventional commit")
        else consoleLog wc gitWarnMsg
      else consoleLog wb gitWarnMsg
    else consoleLog wa gitWarnMsg
  { w2 with cwd := originalCwd }

def createProject (w : World) (projectName? : Option String) : World :=
  match projectName? with
  | none => consoleError w ("❌ Project name required: kt-cli new <project-name>")
  | some projectName =>
    -- `!projectName` is also truthy for the empty string
    if projectName = "" then
      consoleError w ("❌ Project name required: kt-cli new <project-name>")
    else
    let projectPath := pathJoin w.cwd projectName
    if existsSync w projectPath then
      consoleError w ("❌ Directory " ++ projectName ++ " already exists")
    else
      let wA := consoleLog w ("🚀 Creating AI-ready project: " ++ projectName)
      let wB := createProjectStructure wA projectPath
      let wC := setupProtocols wB projectPath
      let wD := generateAIContext wC projectPath projectName
      let wE := initializeGit wD projectPath projectName
      let wF := consoleLog wE ("✅ Project " ++ projectName ++ " created successfully!")
      let wG := consoleLog wF ("📁 Location: " ++ renderPath projectPath)
      let wH := consoleLog wG ("🤖 AI Context: " ++ renderPath projectPath ++ "/.kt-context/ai-context.md")
      let wI := consoleLog wH ("\n📋 Next steps:")
      let wJ := consoleLog wI ("   cd " ++ projectName)
      consoleLog wJ ("   kt-cli ai prepare  # Share context with AI assistant")

def bannerLine : String := "━━━━━━━━━━━━━━━━━━━━━━━━━━━━━━━━━━━━━━━━━━━━━━"

def prepareAIContext (w : World) : World :=
  let contextPath := w.cwd ++ pathComps (".kt-context/ai-context.md")
  if existsSync w contextPath then
    match w.fs.readFile contextPath with
    | none => w
    | some content =>
      let w1 := consoleLog w ("🤖 Preparing AI Assistant context...")
      let w2 := consoleLog w1 ("")
      let w3 := consoleLog w2 ("📋 Share this with your AI Assistant:")
      let w4 := consoleLog w3 bannerLine
      let w5 := consoleLog w4 ("")
      let w6 := consoleLog w5 ("I'm working on a project that uses Knowledge Transfer Protocols.")
      let w7 := consoleLog w6 ("Please read and understand this context:")
      let w8 := consoleLog w7 ("")
      let w9 := consoleLog w8 content
      let w10 := consoleLog w9 ("")
      let w11 := consoleLog w10 bannerLine
      let w12 := consoleLog w11 ("")
      consoleLog w12 ("✅ Copy the above text and share it with your AI assistant")
  else
    consoleError w ("❌ No AI context found. Run this in a kt-cli project directory.")

/-- Modelled from the spec: `validateAIUnderstanding` (the `ai validate`
handler) is absent from the provided sources — only its call site in
`handleAICommand` is.  Per the spec it prints a "not implemented" style
usage hint and performs no other effect. -/
def validateAIUnderstanding (w : World) : World :=
  consoleLog w ("kt-cli ai validate is not implemented yet")

/-- Modelled from the spec: `generateHandoffPackage` (the `ai handoff`
handler) is absent from the provided sources — only its call site in
`handleAICommand` is.  Per the spec it prints a "not implemented" style
usage hint and performs no other effect. -/
def generateHandoffPackage (w : World) : World :=
  consoleLog w ("kt-cli ai handoff is not implemented yet")

def handleAICommand (w : World) (args : List String) : World :=
  match args.head? with
  | some ("prepare") => prepareAIContext w
  | some ("validate") => validateAIUnderstanding w
  | some ("handoff") => generateHandoffPackage w
  | _ =>
    let w1 := consoleLog w ("AI Commands:")
    let w2 := consoleLog w1 ("  kt-cli ai prepare   - Generate context for AI assistant")
    let w3 := consoleLog w2 ("  kt-cli ai validate  - Test AI understanding of protocols")
    consoleLog w3 ("  kt-cli ai handoff   - Create handoff package for new AI session")

def showHelp (w : World) : World :=
  consoleLog w (helpText version)

/-- Modelled from the spec: `handleLearnCommand` is absent from the
provided sources — only its call site in `run` is.  Per the spec,
`learn …` is unimplemented and falls to default help-ish behavior,
a no-op on the filesystem. -/
def handleLearnCommand (w : World) (_args : List String) : World :=
  showHelp w

/-- Modelled from the spec: `syncProtocols` is absent from the provided
sources — only its call site in `run` is.  Per the spec, `sync` is
unimplemented: a no-op. -/
def syncProtocols (w : World) : World :=
  w

def run (w : World) (args : List String) : World :=
  match args.head? with
  | none => showHelp w
  | some command =>
    if command = "new" then createProject w args[1]?
    else if command = "ai" then handleAICommand w (args.drop 1)
    else if command = "learn" then handleLearnCommand w (args.drop 1)
    else if command = "sync" then syncProtocols w
    else if command = "version" then consoleLog w ("kt-cli v" ++ version)
    else showHelp w

/-- `this.configDir = path.join(process.env.HOME, '.kt-cli')`. -/
def configDir (w : World) : List String :=
  pathJoin w.home (".kt-cli")

def ensureConfigDir (w : World) : World :=
  if existsSync w (configDir w) then w
  else
    let w1 := mkdirSync w (configDir w)
    let w2 := mkdirSync w1 (pathJoin (configDir w) ("templates"))
    mkdirSync w2 (pathJoin (configDir w) ("protocols"))

/-- One CLI invocation: the constructor's `ensureConfigDir` bootstrap
followed by `run`. -/
def cliMain (w : World) (args : List String) : World :=
  run (ensureConfigDir w) args

/-- An event path strictly below `dest`. -/
def FsOp.under (dest : List String) : FsOp → Prop
  | .mkdir p => ∃ n t, p = dest ++ n :: t
  | .write p _ => ∃ n t, p = dest ++ n :: t
  | .git _ => False

/-- The condition under which `copyList` leaves the state at `q`
untouched: no path strictly below `dest` is a prefix of `q`. -/
def Untouched (dest q : List String) : Prop :=
  ∀ n t, ¬ (dest ++ n :: t) <+: q

/-- The subprocess calls attempted by `initializeGit`: each command is
attempted only if the previous one succeeded. -/
def gitEvents (g : GitEnv) (projectName : String) : List FsOp :=
  .git ("git init") ::
    (if g.initOk then
      .git ("git add .") ::
        (if g.addOk then [.git (gitCommitCmd projectName)] else [])
    else [])

/-- What `initializeGit` logs: success only when all three calls succeed. -/
def gitMsg (g : GitEnv) : String :=
  if g.initOk && g.addOk && g.commitOk then
    "📝 Git repository initialized with conventional commit"
  else gitWarnMsg

/-- The DirectorySpec: the project root followed by the eight relative
directories of `createProjectStructure`, as absolute component paths. -/
def specPaths (target : List String) : List (List String) :=
  target :: projectDirs.map (fun d => pathJoin target d)

/-- The scaffold phase as a transformation of the project-root subtree:
the eight directory creations followed by the seven file writes. -/
def scaffoldFun (cwdBase dateStr nameBase : String) (t : FsEntry) : FsEntry :=
  (((((((((((((((t.mkdirp ["src"]).mkdirp ["tests"]).mkdirp ["docs"]).mkdirp
    ["public"]).mkdirp ["data"]).mkdirp ["BestPractices", "Generic"]).mkdirp
    ["BestPractices", "ProjectSpecific"]).mkdirp [".kt-context"]).writeFile
    ["package.json"] (generatePackageJson nameBase)).writeFile
    ["README.md"] (generateReadme nameBase)).writeFile
    [".gitignore"] generateGitignore).writeFile
    ["src", "server.js"] (generateServerTemplate cwdBase dateStr)).writeFile
    ["tests", "test-server.js"] generateTestTemplate).writeFile
    ["docs", "API_DOCUMENTATION.md"] generateAPIDocsTemplate).writeFile
    ["data", "README.md"] dataReadmeContent)

/-- The write events of the scaffold phase, in source order. -/
def scaffoldWriteOps (target : List String) (cwdBase dateStr nameBase : String) : List FsOp :=
  [.write (target ++ ["package.json"]) (generatePackageJson nameBase),
   .write (target ++ ["README.md"]) (generateReadme nameBase),
   .write (target ++ [".gitignore"]) generateGitignore,
   .write (target ++ ["src", "server.js"]) (generateServerTemplate cwdBase dateStr),
   .write (target ++ ["tests", "test-server.js"]) generateTestTemplate,
   .write (target ++ ["docs", "API_DOCUMENTATION.md"]) generateAPIDocsTemplate,
   .write (target ++ ["data", "README.md"]) dataReadmeContent]

/-- The fallback protocol documents as written by `createBasicProtocols`,
as (relative path under the project root, content) pairs. -/
def protocolDocs : List (List String × String) :=
  [(["BestPractices", "Generic", "CodeOrganizationFramework.md"], codeOrgContent),
   (["BestPractices", "Generic", "GitWorkflowPatterns.md"], gitWorkflowContent),
   (["BestPractices", "Generic", "DocumentationFramework.md"], docsFrameworkContent),
   (["BestPractices", "Generic", "ProtocolEvolutionFramework.md"], protocolEvolutionContent)]

/-- The four fallback protocol document writes, as a subtree transformation. -/
def protocolsFun (t : FsEntry) : FsEntry :=
  (((t.writeFile ["BestPractices", "Generic", "CodeOrganizationFramework.md"] codeOrgContent).writeFile
    ["BestPractices", "Generic", "GitWorkflowPatterns.md"] gitWorkflowContent).writeFile
    ["BestPractices", "Generic", "DocumentationFramework.md"] docsFrameworkContent).writeFile
    ["BestPractices", "Generic", "ProtocolEvolutionFramework.md"] protocolEvolutionContent

/-- The two context-file writes, as a subtree transformation. -/
def contextFun (name now : String) (t : FsEntry) : FsEntry :=
  (t.writeFile [".kt-context", "ai-context.md"] (aiContextTemplate name now)).writeFile
    [".kt-context", "project-dna.json"] (renderJson (projectDNAValue name now) 0)

/-- The listing of `BestPractices/Generic` after the fallback materializer. -/
def genericProtocolsListing : List (String × FsEntry) :=
  [("CodeOrganizationFramework.md", .file codeOrgContent),
   ("GitWorkflowPatterns.md", .file gitWorkflowContent),
   ("DocumentationFramework.md", .file docsFrameworkContent),
   ("ProtocolEvolutionFramework.md", .file protocolEvolutionContent)]

/-- The listing of `.kt-context` after context generation. -/
def contextListing (name now : String) : List (String × FsEntry) :=
  [("ai-context.md", .file (aiContextTemplate name now)),
   ("project-dna.json", .file (renderJson (projectDNAValue name now) 0))]

/-- The project-root subtree produced by the pipeline, parameterized by
the listings of `BestPractices/Generic` and `.kt-context`. -/
def projTree (cwdBase dateStr nameBase : String)
    (generic ctx : List (String × FsEntry)) : FsEntry :=
  .dir [("src", .dir [("server.js", .file (generateServerTemplate cwdBase dateStr))]),
        ("tests", .dir [("test-server.js", .file generateTestTemplate)]),
        ("docs", .dir [("API_DOCUMENTATION.md", .file generateAPIDocsTemplate)]),
        ("public", .dir []),
        ("data", .dir [("README.md", .file dataReadmeContent)]),
        ("BestPractices", .dir [("Generic", .dir generic), ("ProjectSpecific", .dir [])]),
        (".kt-context", .dir ctx),
        ("package.json", .file (generatePackageJson nameBase)),
        ("README.md", .file (generateReadme nameBase)),
        (".gitignore", .file generateGitignore)]

/-! ## A JSON parser (verification-side, used to state syntactic validity) -/

/-- JSON whitespace. -/
def isJsonWs (c : Char) : Bool :=
  c = ' ' || c = '\n' || c = '\t' || c = '\r'

def skipWs (cs : List Char) : List Char :=
  cs.dropWhile isJsonWs

def hexVal (c : Char) : Option Nat :=
  if '0' ≤ c && c ≤ '9' then some (c.toNat - 48)
  else if 'a' ≤ c && c ≤ 'f' then some (c.toNat - 87)
  else if 'A' ≤ c && c ≤ 'F' then some (c.toNat - 55)
  else none

/-- Parse the body of a JSON string literal (after the opening quote),
returning the decoded characters and the input after the closing quote. -/
def parseStringBody (fuel : Nat) (cs : List Char) : Option (List Char × List Char) :=
  match fuel with
  | 0 => none
  | fuel + 1 =>
    match cs with
    | [] => none
    | '"' :: rest => some ([], rest)
    | '\\' :: esc :: rest =>
      let cont (c : Char) (rs : List Char) : Option (List Char × List Char) :=
        match parseStringBody fuel rs with
        | some (body, after) => some (c :: body, after)
        | none => none
      match esc, rest with
      | '"', _ => cont '"' rest
      | '\\', _ => cont '\\' rest
      | '/', _ => cont '/' rest
      | 'n', _ => cont '\n' rest
      | 't', _ => cont '\t' rest
      | 'r', _ => cont '\r' rest
      | 'b', _ => cont '\x08' rest
      | 'f', _ => cont '\x0c' rest
      | 'u', h1 :: h2 :: h3 :: h4 :: rest2 =>
        (match hexVal h1, hexVal h2, hexVal h3, hexVal h4 with
         | some a, some b, some c, some d =>
           match parseStringBody fuel rest2 with
           | some (body, after) =>
             some (Char.ofNat (((a * 16 + b) * 16 + c) * 16 + d) :: body, after)
           | none => none
         | _, _, _, _ => none)
      | _, _ => none
    | c :: rest =>
      match parseStringBody fuel rest with
      | some (body, after) => some (c :: body, after)
      | none => none

mutual

/-- Parse one JSON value (strings, booleans, objects — the grammar the
tool's generator emits). -/
def parseValue (fuel : Nat) (cs : List Char) : Option (Json × List Char) :=
  match fuel with
  | 0 => none
  | fuel + 1 =>
    match skipWs cs with
    | '"' :: rest =>
      match parseStringBody fuel rest with
      | some (body, after) => some (.str (String.mk body), after)
      | none => none
    | 't' :: 'r' :: 'u' :: 'e' :: rest => some (.bool true, rest)
    | 'f' :: 'a' :: 'l' :: 's' :: 'e' :: rest => some (.bool false, rest)
    | '\x7b' :: rest =>
      match skipWs rest with
      | '\x7d' :: rest2 => some (.obj [], rest2)
      | rest2 =>
        match parseMembers fuel rest2 with
        | some (es, after) => some (.obj es, after)
        | none => none
    | _ => none

/-- Parse the members of an object, ending at the closing brace. -/
def parseMembers (fuel : Nat) (cs : List Char) : Option (List (String × Json) × List Char) :=
  match fuel with
  | 0 => none
  | fuel + 1 =>
    match skipWs cs with
    | '"' :: rest =>
      match parseStringBody fuel rest with
      | some (key, afterKey) =>
        match skipWs afterKey with
        | ':' :: afterColon =>
          match parseValue fuel afterColon with
          | some (v, afterVal) =>
            (match skipWs afterVal with
             | ',' :: afterComma =>
               match parseMembers fuel afterComma with
               | some (es, after) => some ((String.mk key, v) :: es, after)
               | none => none
             | '\x7d' :: after => some ([(String.mk key, v)], after)
             | _ => none)
          | none => none
        | _ => none
      | none => none
    | _ => none

end

/-- Parse a complete JSON document: one value and trailing whitespace. -/
def parseJson (s : String) : Option Json :=
  match parseValue (s.length + 1) s.data with
  | some (v, rest) => if skipWs rest = [] then some v else none
  | none => none

mutual

/-- Well-formed filesystem entry: every directory listing binds each
name at most once (true of any listing read from a real filesystem). -/
def wfEntry : FsEntry → Bool
  | .file _ => true
  | .dir es => wfList es

/-- Well-formed listing: distinct keys, recursively well-formed values. -/
def wfList : List (String × FsEntry) → Bool
  | [] => true
  | (n, e) :: rest => !(rest.any (fun kv => kv.1 = n)) && wfEntry e && wfList rest

end

/-! ## Support for the claim theorems -/

/-- Does a string contain a `/` path separator?  Names with one are
split into several components by `path.join`. -/
def hasSlash (s : String) : Bool := s.data.any (fun c => c = '/')

/-- `t` occurs contiguously inside `s`. -/
def embedsStr (s t : String) : Prop :=
  ∃ pre post : List Char, s.data = pre ++ t.data ++ post

/-- A directory entry that is a file with non-empty content. -/
def isNonEmptyDoc : FsEntry → Bool
  | .file c => !(c == "")
  | .dir _ => false

/-- The FileSpec: every scaffold file path with its generated content. -/
def fileSpec (target : List String) (cwdBase dateStr : String) :
    List (List String × String) :=
  [(target ++ ["package.json"], generatePackageJson (basename target)),
   (target ++ ["README.md"], generateReadme (basename target)),
   (target ++ [".gitignore"], generateGitignore),
   (target ++ ["src", "server.js"], generateServerTemplate cwdBase dateStr),
   (target ++ ["tests", "test-server.js"], generateTestTemplate),
   (target ++ ["docs", "API_DOCUMENTATION.md"], generateAPIDocsTemplate),
   (target ++ ["data", "README.md"], dataReadmeContent)]

/-- A concrete world with an empty filesystem, used to instantiate the
conditional theorems below at concrete inputs. -/
def sampleWorld : World :=
  { fs := .dir [], cwd := ["", "w"], dirname := ["", "opt", "kt-cli"],
    home := ["", "root"], now := "2025-09-09T12:00:00.000Z",
    git := { initOk := true, addOk := true, commitOk := true },
    out := [], err := [], trace := [] }

/-- A world in which `<cwd>/proj` already exists. -/
def sampleWorldExisting : World :=
  { sampleWorld with fs := .dir [("", .dir [("w", .dir [("proj", .dir [])])])] }

/-- A world with a fresh project target for the protocol materializer. -/
def sampleWorldProto : World :=
  { sampleWorld with
    fs := .dir [("p", .dir [("BestPractices", .dir [("Generic", .dir [])])])] }

/-- A world whose working directory has a recognizable base name absent
from every generated template. -/
def sampleWorldZ : World :=
  { sampleWorld with cwd := ["", "ZZZbase"] }

/-- A world in which the per-user configuration directory already
exists, without its `templates` / `protocols` subdirectories. -/
def sampleWorldCfg : World :=
  { sampleWorld with
    fs := .dir [("", .dir [("root", .dir [(".kt-cli", .dir [])])])] }

/-! ## Theorems -/

/-! ## Basic lemmas about directory listings -/

theorem getEntry_setEntry_self (es : List (String × FsEntry)) (k : String) (v : FsEntry) :
    getEntry (setEntry es k v) k = some v := by
  induction es with
  | nil => simp [setEntry, getEntry]
  | cons kv rest ih =>
    obtain ⟨k', e'⟩ := kv
    by_cases h : k' = k <;> simp [setEntry, getEntry, h, ih]

theorem getEntry_setEntry_ne (es : List (String × FsEntry)) (k n : String) (v : FsEntry)
    (h : k ≠ n) : getEntry (setEntry es k v) n = getEntry es n := by
  induction es with
  | nil => simp [setEntry, getEntry, h]
  | cons kv rest ih =>
    obtain ⟨k', e'⟩ := kv
    by_cases h' : k' = k
    · subst h'
      simp [setEntry, getEntry, h]
    · simp [setEntry, getEntry, h', ih]

/-! ## Lemmas about `lookup`, `updateAt`, `mkdirp`, `writeFile` -/

theorem lookup_append (e : FsEntry) (p q : List String) :
    e.lookup (p ++ q) = (e.lookup p).bind (fun s => s.lookup q) := by
  induction p generalizing e with
  | nil => simp [FsEntry.lookup]
  | cons k ks ih =>
    cases e with
    | file c => simp [FsEntry.lookup]
    | dir es =>
      simp only [List.cons_append, FsEntry.lookup]
      cases getEntry es k with
      | none => simp
      | some e' => simpa using ih e'

theorem lookup_updateAt_self (e : FsEntry) (p : List String) (f : FsEntry → FsEntry)
    (s : FsEntry) (h : e.lookup p = some s) :
    (e.updateAt p f).lookup p = some (f s) := by
  induction p generalizing e with
  | nil =>
    simp [FsEntry.lookup] at h
    simp [FsEntry.updateAt, FsEntry.lookup, h]
  | cons k ks ih =>
    cases e with
    | file c => simp [FsEntry.lookup] at h
    | dir es =>
      simp only [FsEntry.lookup] at h
      cases hg : getEntry es k with
      | none => simp [hg] at h
      | some e' =>
        rw [hg] at h
        simp only [FsEntry.updateAt, hg, FsEntry.lookup, getEntry_setEntry_self]
        exact ih e' h

theorem lookup_updateAt_append (e : FsEntry) (p q : List String) (f : FsEntry → FsEntry)
    (s : FsEntry) (h : e.lookup p = some s) :
    (e.updateAt p f).lookup (p ++ q) = (f s).lookup q := by
  rw [lookup_append, lookup_updateAt_self e p f s h]
  rfl

theorem updateAt_updateAt (e : FsEntry) (p : List String) (f g : FsEntry → FsEntry) :
    (e.updateAt p f).updateAt p g = e.updateAt p (fun t => g (f t)) := by
  induction p generalizing e with
  | nil => simp [FsEntry.updateAt]
  | cons k ks ih =>
    cases e with
    | file c => simp [FsEntry.updateAt]
    | dir es =>
      cases hg : getEntry es k with
      | none => simp [FsEntry.updateAt, hg]
      | some e' =>
        simp [FsEntry.updateAt, hg, getEntry_setEntry_self, ih]
        induction es with
        | nil => simp [getEntry] at hg
        | cons kv rest ih2 =>
          obtain ⟨k', e''⟩ := kv
          by_cases hk : k' = k
          · subst hk
            simp [getEntry] at hg
            simp [setEntry, hg]
          · simp [getEntry, hk] at hg
            simp [setEntry, hk, ih2 hg]

theorem prefix_append_cancel {α : Type} {l l1 l2 : List α} :
    (l ++ l1 <+: l ++ l2) ↔ l1 <+: l2 := by
  constructor
  · rintro ⟨t, h⟩
    exact ⟨t, by simpa using h⟩
  · rintro ⟨t, h⟩
    exact ⟨t, by simp [← h]⟩

theorem updateAt_id (e : FsEntry) (p : List String) :
    e.updateAt p (fun t => t) = e := by
  induction p generalizing e with
  | nil => simp [FsEntry.updateAt]
  | cons k ks ih =>
    cases e with
    | file c => simp [FsEntry.updateAt]
    | dir es =>
      cases hg : getEntry es k with
      | none => simp [FsEntry.updateAt, hg]
      | some e' =>
        simp only [FsEntry.updateAt, hg, ih]
        congr 1
        induction es with
        | nil => simp [getEntry] at hg
        | cons kv rest ih2 =>
          obtain ⟨k', e''⟩ := kv
          by_cases hk : k' = k
          · subst hk
            simp [getEntry] at hg
            simp [setEntry, hg]
          · simp [getEntry, hk] at hg
            simp [setEntry, hk, ih2 hg]

theorem mkdirp_eq_updateAt (e : FsEntry) (p q : List String) (s : FsEntry)
    (h : e.lookup p = some s) :
    e.mkdirp (p ++ q) = e.updateAt p (fun t => t.mkdirp q) := by
  induction p generalizing e with
  | nil => simp [FsEntry.updateAt]
  | cons k ks ih =>
    cases e with
    | file c => simp [FsEntry.lookup] at h
    | dir es =>
      simp only [FsEntry.lookup] at h
      cases hg : getEntry es k with
      | none => simp [hg] at h
      | some e' =>
        rw [hg] at h
        simp [FsEntry.mkdirp, FsEntry.updateAt, hg, ih e' h]

theorem writeFile_eq_updateAt (e : FsEntry) (p q : List String) (c : String) (s : FsEntry)
    (h : e.lookup p = some s) (hq : q ≠ []) :
    e.writeFile (p ++ q) c = e.updateAt p (fun t => t.writeFile q c) := by
  induction p generalizing e with
  | nil => simp [FsEntry.updateAt]
  | cons k ks ih =>
    cases e with
    | file cc => simp [FsEntry.lookup] at h
    | dir es =>
      simp only [FsEntry.lookup] at h
      cases hg : getEntry es k with
      | none => simp [hg] at h
      | some e' =>
        rw [hg] at h
        cases hk : ks ++ q with
        | nil =>
          exact absurd (List.append_eq_nil.mp hk).2 hq
        | cons a as =>
          simp only [List.cons_append, FsEntry.writeFile, FsEntry.updateAt, hk, hg]
          rw [← hk, ih e' h]

/-- The tree created by `mkdirp` from an empty directory is a chain of
empty directories: looking up the full path finds an empty directory. -/
theorem chain_lookup (ks : List String) :
    ((FsEntry.dir []).mkdirp ks).lookup ks = some (.dir []) := by
  induction ks with
  | nil => simp [FsEntry.mkdirp, FsEntry.lookup]
  | cons k ks ih =>
    simp [FsEntry.mkdirp, FsEntry.lookup, getEntry, setEntry, ih]

theorem mkdirp_lookup_fresh (e : FsEntry) (p : List String)
    (hc : e.canMkdirp p = true) (hn : e.lookup p = none) :
    (e.mkdirp p).lookup p = some (.dir []) := by
  induction p generalizing e with
  | nil => simp [FsEntry.lookup] at hn
  | cons k ks ih =>
    cases e with
    | file c => simp [FsEntry.canMkdirp] at hc
    | dir es =>
      simp only [FsEntry.canMkdirp] at hc
      simp only [FsEntry.lookup] at hn
      cases hg : getEntry es k with
      | none =>
        simp [FsEntry.mkdirp, FsEntry.lookup, hg, getEntry_setEntry_self, chain_lookup]
      | some e' =>
        rw [hg] at hc hn
        simp [FsEntry.mkdirp, FsEntry.lookup, hg, getEntry_setEntry_self, ih e' hc hn]

/-- A chain of fresh empty directories contains no file anywhere. -/
theorem chain_readFile (ks js : List String) :
    ((FsEntry.dir []).mkdirp ks).readFile js = none := by
  induction ks generalizing js with
  | nil =>
    cases js <;> simp [FsEntry.mkdirp, FsEntry.readFile, FsEntry.lookup, getEntry]
  | cons k ks ih =>
    cases js with
    | nil => simp [FsEntry.mkdirp, FsEntry.readFile, FsEntry.lookup]
    | cons j js =>
      by_cases hj : j = k
      · subst hj
        simpa [FsEntry.mkdirp, FsEntry.readFile, FsEntry.lookup, getEntry, setEntry]
          using ih js
      · simp [FsEntry.mkdirp, FsEntry.readFile, FsEntry.lookup, getEntry, setEntry,
          Ne.symm hj]

/-- `mkdirp` never creates, removes or alters any file. -/
theorem readFile_mkdirp (e : FsEntry) (p q : List String) :
    (e.mkdirp p).readFile q = e.readFile q := by
  induction p generalizing e q with
  | nil => simp [FsEntry.mkdirp]
  | cons k ks ih =>
    cases e with
    | file c => simp [FsEntry.mkdirp]
    | dir es =>
      cases q with
      | nil => simp [FsEntry.mkdirp, FsEntry.readFile, FsEntry.lookup]
      | cons j js =>
        by_cases hj : j = k
        · subst hj
          cases hg : getEntry es j with
          | none =>
            have h2 := chain_readFile ks js
            simp only [FsEntry.readFile] at h2
            simp [FsEntry.mkdirp, FsEntry.readFile, FsEntry.lookup, hg,
              getEntry_setEntry_self, h2]
          | some e' =>
            have := ih e' js
            simp only [FsEntry.readFile] at this ⊢
            simp [FsEntry.mkdirp, FsEntry.lookup, hg, getEntry_setEntry_self, this]
        · simp [FsEntry.mkdirp, FsEntry.readFile, FsEntry.lookup,
            getEntry_setEntry_ne _ _ _ _ (fun h => hj h.symm)]

/-- `mkdirp` never removes an entry. -/
theorem isSome_lookup_mkdirp (e : FsEntry) (p q : List String)
    (h : (e.lookup q).isSome) : ((e.mkdirp p).lookup q).isSome := by
  induction p generalizing e q with
  | nil => simpa [FsEntry.mkdirp] using h
  | cons k ks ih =>
    cases e with
    | file c => simpa [FsEntry.mkdirp] using h
    | dir es =>
      cases q with
      | nil => simp [FsEntry.mkdirp, FsEntry.lookup]
      | cons j js =>
        by_cases hj : j = k
        · subst hj
          cases hg : getEntry es j with
          | none => simp [FsEntry.lookup, hg] at h
          | some e' =>
            simp only [FsEntry.lookup, hg] at h
            simp [FsEntry.mkdirp, FsEntry.lookup, hg, getEntry_setEntry_self, ih e' js h]
        · simp only [FsEntry.lookup, FsEntry.mkdirp,
            getEntry_setEntry_ne _ _ _ _ (Ne.symm hj)] at h ⊢
          exact h

/-- `mkdirp` never turns a directory into anything else. -/
theorem isDirAt_mkdirp (e : FsEntry) (p q : List String)
    (h : e.isDirAt q = true) : (e.mkdirp p).isDirAt q = true := by
  induction p generalizing e q with
  | nil => simpa [FsEntry.mkdirp] using h
  | cons k ks ih =>
    cases e with
    | file c => simpa [FsEntry.mkdirp] using h
    | dir es =>
      cases q with
      | nil => simp [FsEntry.mkdirp, FsEntry.isDirAt, FsEntry.lookup]
      | cons j js =>
        by_cases hj : j = k
        · subst hj
          cases hg : getEntry es j with
          | none => simp [FsEntry.isDirAt, FsEntry.lookup, hg] at h
          | some e' =>
            simp only [FsEntry.isDirAt, FsEntry.lookup, hg] at h
            have := ih e' js (by simpa [FsEntry.isDirAt] using h)
            simp only [FsEntry.isDirAt] at this
            simp [FsEntry.mkdirp, FsEntry.isDirAt, FsEntry.lookup, hg,
              getEntry_setEntry_self, this]
        · simp only [FsEntry.isDirAt, FsEntry.lookup, FsEntry.mkdirp,
            getEntry_setEntry_ne _ _ _ _ (Ne.symm hj)] at h ⊢
          exact h

/-- A write at `p` does not affect the content read at any `q` that does
not extend `p`. -/
theorem readFile_writeFile (e : FsEntry) (p q : List String) (c : String)
    (h : ¬ p <+: q) : (e.writeFile p c).readFile q = e.readFile q := by
  induction p generalizing e q with
  | nil => exact absurd (List.nil_prefix) h
  | cons k ks ih =>
    cases e with
    | file cc => simp [FsEntry.writeFile]
    | dir es =>
      cases q with
      | nil =>
        cases ks with
        | nil => simp [FsEntry.writeFile, FsEntry.readFile, FsEntry.lookup]
        | cons a as =>
          cases hg : getEntry es k with
          | none => simp [FsEntry.writeFile, hg]
          | some e' => simp [FsEntry.writeFile, hg, FsEntry.readFile, FsEntry.lookup]
      | cons j js =>
        by_cases hj : j = k
        · subst hj
          have hks : ¬ ks <+: js := fun hp => h (List.cons_prefix_cons.mpr ⟨rfl, hp⟩)
          cases ks with
          | nil => exact absurd (List.nil_prefix) hks
          | cons a as =>
            cases hg : getEntry es j with
            | none => simp [FsEntry.writeFile, hg]
            | some e' =>
              have hrec := ih e' js
              simp only [FsEntry.readFile] at hrec
              simp [FsEntry.writeFile, FsEntry.readFile, FsEntry.lookup, hg,
                getEntry_setEntry_self, hrec hks]
        · cases ks with
          | nil =>
            simp [FsEntry.writeFile, FsEntry.readFile, FsEntry.lookup,
              getEntry_setEntry_ne _ _ _ _ (Ne.symm hj)]
          | cons a as =>
            cases hg : getEntry es k with
            | none => simp [FsEntry.writeFile, hg]
            | some e' =>
              simp [FsEntry.writeFile, FsEntry.readFile, FsEntry.lookup, hg,
                getEntry_setEntry_ne _ _ _ _ (Ne.symm hj)]

/-- A write at `p` keeps every directory at a `q` not extending `p`. -/
theorem isDirAt_writeFile (e : FsEntry) (p q : List String) (c : String)
    (hpre : ¬ p <+: q) (h : e.isDirAt q = true) :
    (e.writeFile p c).isDirAt q = true := by
  induction p generalizing e q with
  | nil => exact absurd (List.nil_prefix) hpre
  | cons k ks ih =>
    cases e with
    | file cc => simpa [FsEntry.writeFile] using h
    | dir es =>
      cases q with
      | nil =>
        cases ks with
        | nil => simp [FsEntry.writeFile, FsEntry.isDirAt, FsEntry.lookup]
        | cons a as =>
          cases hg : getEntry es k with
          | none => simpa [FsEntry.writeFile, hg] using h
          | some e' => simp [FsEntry.writeFile, hg, FsEntry.isDirAt, FsEntry.lookup]
      | cons j js =>
        by_cases hj : j = k
        · subst hj
          have hks : ¬ ks <+: js := fun hp => hpre (List.cons_prefix_cons.mpr ⟨rfl, hp⟩)
          cases ks with
          | nil => exact absurd (List.nil_prefix) hks
          | cons a as =>
            cases hg : getEntry es j with
            | none => simpa [FsEntry.writeFile, hg] using h
            | some e' =>
              simp only [FsEntry.isDirAt, FsEntry.lookup, hg] at h
              have hrec := ih e' js hks (by simpa [FsEntry.isDirAt] using h)
              simp only [FsEntry.isDirAt] at hrec
              simp [FsEntry.writeFile, FsEntry.isDirAt, FsEntry.lookup, hg,
                getEntry_setEntry_self, hrec]
        · cases ks with
          | nil =>
            simp only [FsEntry.isDirAt, FsEntry.lookup] at h ⊢
            simpa [FsEntry.writeFile, FsEntry.lookup,
              getEntry_setEntry_ne _ _ _ _ (Ne.symm hj)] using h
          | cons a as =>
            cases hg : getEntry es k with
            | none => simpa [FsEntry.writeFile, hg] using h
            | some e' =>
              simp only [FsEntry.isDirAt, FsEntry.lookup] at h ⊢
              simpa [FsEntry.writeFile, FsEntry.lookup, hg,
                getEntry_setEntry_ne _ _ _ _ (Ne.symm hj)] using h

theorem isSome_of_isDirAt (e : FsEntry) (p : List String)
    (h : e.isDirAt p = true) : (e.lookup p).isSome := by
  unfold FsEntry.isDirAt at h
  cases hl : e.lookup p with
  | none => simp [hl] at h
  | some s => simp

theorem isSome_of_readFile (e : FsEntry) (p : List String) (c : String)
    (h : e.readFile p = some c) : (e.lookup p).isSome := by
  unfold FsEntry.readFile at h
  cases hl : e.lookup p with
  | none => simp [hl] at h
  | some s => simp

theorem under_weaken (dest : List String) (n : String) (op : FsOp)
    (h : op.under (dest ++ [n])) : op.under dest := by
  cases op with
  | mkdir p =>
    obtain ⟨m, t, rfl⟩ := h
    exact ⟨n, m :: t, by simp⟩
  | write p c =>
    obtain ⟨m, t, rfl⟩ := h
    exact ⟨n, m :: t, by simp⟩
  | git c => exact h.elim

theorem not_prefix_of_under {dest q : List String} (h : ¬ dest <+: q)
    (n : String) (t : List String) : ¬ (dest ++ n :: t) <+: q := by
  intro hp
  exact h (List.IsPrefix.trans (List.prefix_append dest (n :: t)) hp)

theorem untouched_of_length_le {dest q : List String}
    (h : q.length ≤ dest.length) : Untouched dest q := by
  intro n t hp
  have := hp.length_le
  simp at this
  omega

theorem untouched_step {dest q : List String} (n : String)
    (h : Untouched dest q) : Untouched (dest ++ [n]) q := by
  intro m t hp
  exact h n (m :: t) (by simpa using hp)

theorem untouched_head {dest q : List String} (n : String)
    (h : Untouched dest q) : ¬ (dest ++ [n]) <+: q :=
  h n []

/-- `copyList` touches no file outside the strict destination subtree. -/
theorem copyList_readFile (w : World) (dest : List String)
    (items : List (String × FsEntry)) :
    ∀ q, Untouched dest q → ((copyList w dest items).fs).readFile q = w.fs.readFile q := by
  induction w, dest, items using copyList.induct with
  | case1 w dest => intro q _; simp [copyList]
  | case2 w dest n c rest ih =>
    intro q hq
    rw [copyList]
    rw [ih q hq]
    simp only [writeFileSync]
    exact readFile_writeFile _ _ _ _ (untouched_head n hq)
  | case3 w dest n sub rest w1 ih1 ih2 ih3 =>
    intro q hq
    have hw1 : (if existsSync w (dest ++ [n]) = true then w
        else mkdirSync w (dest ++ [n])) = w1 := dite_eq_ite.symm
    rw [copyList, hw1, ih3 q hq, ih1 q (untouched_step n hq), ← hw1]
    by_cases he : existsSync w (dest ++ [n])
    · simp [he]
    · simp [he, mkdirSync, readFile_mkdirp]

/-- `copyList` keeps every directory outside the strict destination subtree. -/
theorem copyList_isDirAt (w : World) (dest : List String)
    (items : List (String × FsEntry)) :
    ∀ q, Untouched dest q → w.fs.isDirAt q = true →
      ((copyList w dest items).fs).isDirAt q = true := by
  induction w, dest, items using copyList.induct with
  | case1 w dest => intro q _ h; simpa [copyList] using h
  | case2 w dest n c rest ih =>
    intro q hq h
    rw [copyList]
    refine ih q hq ?_
    simp only [writeFileSync]
    exact isDirAt_writeFile _ _ _ _ (untouched_head n hq) h
  | case3 w dest n sub rest w1 ih1 ih2 ih3 =>
    intro q hq h
    have hw1 : (if existsSync w (dest ++ [n]) = true then w
        else mkdirSync w (dest ++ [n])) = w1 := dite_eq_ite.symm
    rw [copyList, hw1]
    refine ih3 q hq (ih1 q (untouched_step n hq) ?_)
    rw [← hw1]
    by_cases he : existsSync w (dest ++ [n])
    · simpa [he] using h
    · simp only [he, Bool.false_eq_true, if_false, mkdirSync]
      exact isDirAt_mkdirp _ _ _ h

/-- Every event recorded by `copyList` lies strictly below the destination. -/
theorem copyList_trace (w : World) (dest : List String)
    (items : List (String × FsEntry)) :
    ∃ tr, (copyList w dest items).trace = w.trace ++ tr ∧
      ∀ op ∈ tr, op.under dest := by
  induction w, dest, items using copyList.induct with
  | case1 w dest => exact ⟨[], by simp [copyList], by simp⟩
  | case2 w dest n c rest ih =>
    obtain ⟨tr, htr, hall⟩ := ih
    refine ⟨.write (dest ++ [n]) c :: tr, ?_, ?_⟩
    · rw [copyList, htr]
      simp [writeFileSync]
    · rintro op hop
      rcases List.mem_cons.mp hop with rfl | h
      · exact ⟨n, [], rfl⟩
      · exact hall _ h
  | case3 w dest n sub rest w1 ih1 ih2 ih3 =>
    obtain ⟨tr1, htr1, hall1⟩ := ih1
    obtain ⟨tr2, htr2, hall2⟩ := ih3
    have hw1 : (if existsSync w (dest ++ [n]) = true then w
        else mkdirSync w (dest ++ [n])) = w1 := dite_eq_ite.symm
    by_cases he : existsSync w (dest ++ [n])
    · refine ⟨tr1 ++ tr2, ?_, ?_⟩
      · rw [copyList, hw1, htr2, htr1, ← hw1]
        simp [he, List.append_assoc]
      · rintro op hop
        rcases List.mem_append.mp hop with h | h
        · exact under_weaken dest n op (hall1 _ h)
        · exact hall2 _ h
    · refine ⟨.mkdir (dest ++ [n]) :: (tr1 ++ tr2), ?_, ?_⟩
      · rw [copyList, hw1, htr2, htr1, ← hw1]
        simp [he, mkdirSync, List.append_assoc]
      · rintro op hop
        rcases List.mem_cons.mp hop with rfl | h
        · exact ⟨n, [], rfl⟩
        · rcases List.mem_append.mp h with h | h
          · exact under_weaken dest n op (hall1 _ h)
          · exact hall2 _ h

/-- Chain step: a recursive `mkdir` under an already-localized subtree. -/
theorem step_mkdirp {e0 : FsEntry} {target : List String} {s : FsEntry}
    (h : e0.lookup target = some s) (f : FsEntry → FsEntry) (q : List String) :
    (e0.updateAt target f).mkdirp (target ++ q) =
      e0.updateAt target (fun t => (f t).mkdirp q) := by
  rw [mkdirp_eq_updateAt _ _ _ (f s) (lookup_updateAt_self e0 target f s h),
    updateAt_updateAt]

/-- Chain step: a file write under an already-localized subtree. -/
theorem step_write {e0 : FsEntry} {target : List String} {s : FsEntry}
    (h : e0.lookup target = some s) (f : FsEntry → FsEntry) (q : List String)
    (c : String) (hq : q ≠ []) :
    (e0.updateAt target f).writeFile (target ++ q) c =
      e0.updateAt target (fun t => (f t).writeFile q c) := by
  rw [writeFile_eq_updateAt _ _ _ _ (f s) (lookup_updateAt_self e0 target f s h) hq,
    updateAt_updateAt]

/-- Reading under an already-localized subtree. -/
theorem step_readFile {e0 : FsEntry} {target : List String} {s : FsEntry}
    (h : e0.lookup target = some s) (f : FsEntry → FsEntry) (q : List String) :
    (e0.updateAt target f).readFile (target ++ q) = (f s).readFile q := by
  unfold FsEntry.readFile
  rw [lookup_updateAt_append e0 target q f s h]

/-- Directory testing under an already-localized subtree. -/
theorem step_isDirAt {e0 : FsEntry} {target : List String} {s : FsEntry}
    (h : e0.lookup target = some s) (f : FsEntry → FsEntry) (q : List String) :
    (e0.updateAt target f).isDirAt (target ++ q) = (f s).isDirAt q := by
  unfold FsEntry.isDirAt
  rw [lookup_updateAt_append e0 target q f s h]

/-- Existence testing under an already-localized subtree. -/
theorem step_existsAt {e0 : FsEntry} {target : List String} {s : FsEntry}
    (h : e0.lookup target = some s) (f : FsEntry → FsEntry) (q : List String) :
    ((e0.updateAt target f).lookup (target ++ q)).isSome = ((f s).lookup q).isSome := by
  rw [lookup_updateAt_append e0 target q f s h]

theorem not_prefix_of_length_lt {α : Type} {a b : List α}
    (h : b.length < a.length) : ¬ a <+: b :=
  fun hp => absurd hp.length_le (by omega)

/-- Writing a file into an existing directory, then reading it back. -/
theorem readFile_writeFile_self (e : FsEntry) (pref : List String) (k : String)
    (c : String) (h : e.isDirAt pref = true) :
    (e.writeFile (pref ++ [k]) c).readFile (pref ++ [k]) = some c := by
  unfold FsEntry.isDirAt at h
  cases hl : e.lookup pref with
  | none => simp [hl] at h
  | some s =>
    cases s with
    | file cc => simp [hl] at h
    | dir es =>
      rw [writeFile_eq_updateAt _ _ _ _ _ hl (by simp)]
      unfold FsEntry.readFile
      rw [lookup_updateAt_append _ _ _ _ _ hl]
      simp [FsEntry.writeFile, FsEntry.lookup, getEntry_setEntry_self]

@[simp] theorem consoleLog_fs (w : World) (s : String) : (consoleLog w s).fs = w.fs := rfl

@[simp] theorem consoleLog_cwd (w : World) (s : String) : (consoleLog w s).cwd = w.cwd := rfl

@[simp] theorem consoleLog_now (w : World) (s : String) : (consoleLog w s).now = w.now := rfl

@[simp] theorem consoleLog_dirname (w : World) (s : String) : (consoleLog w s).dirname = w.dirname := rfl

@[simp] theorem consoleLog_home (w : World) (s : String) : (consoleLog w s).home = w.home := rfl

@[simp] theorem consoleLog_git (w : World) (s : String) : (consoleLog w s).git = w.git := rfl

@[simp] theorem consoleLog_trace (w : World) (s : String) : (consoleLog w s).trace = w.trace := rfl

@[simp] theorem consoleLog_err (w : World) (s : String) : (consoleLog w s).err = w.err := rfl

@[simp] theorem consoleLog_out (w : World) (s : String) : (consoleLog w s).out = w.out ++ [s] := rfl

@[simp] theorem consoleError_fs (w : World) (s : String) : (consoleError w s).fs = w.fs := rfl

@[simp] theorem consoleError_cwd (w : World) (s : String) : (consoleError w s).cwd = w.cwd := rfl

@[simp] theorem consoleError_trace (w : World) (s : String) : (consoleError w s).trace = w.trace := rfl

@[simp] theorem consoleError_out (w : World) (s : String) : (consoleError w s).out = w.out := rfl

@[simp] theorem consoleError_err (w : World) (s : String) : (consoleError w s).err = w.err ++ [s] := rfl

@[simp] theorem mkdirSync_fs (w : World) (p : List String) : (mkdirSync w p).fs = w.fs.mkdirp p := rfl

@[simp] theorem mkdirSync_cwd (w : World) (p : List String) : (mkdirSync w p).cwd = w.cwd := rfl

@[simp] theorem mkdirSync_now (w : World) (p : List String) : (mkdirSync w p).now = w.now := rfl

@[simp] theorem mkdirSync_dirname (w : World) (p : List String) : (mkdirSync w p).dirname = w.dirname := rfl

@[simp] theorem mkdirSync_home (w : World) (p : List String) : (mkdirSync w p).home = w.home := rfl

@[simp] theorem mkdirSync_git (w : World) (p : List String) : (mkdirSync w p).git = w.git := rfl

@[simp] theorem mkdirSync_out (w : World) (p : List String) : (mkdirSync w p).out = w.out := rfl

@[simp] theorem mkdirSync_err (w : World) (p : List String) : (mkdirSync w p).err = w.err := rfl

@[simp] theorem mkdirSync_trace (w : World) (p : List String) :
    (mkdirSync w p).trace = w.trace ++ [.mkdir p] := rfl

@[simp] theorem writeFileSync_fs (w : World) (p : List String) (c : String) :
    (writeFileSync w p c).fs = w.fs.writeFile p c := rfl

@[simp] theorem writeFileSync_cwd (w : World) (p : List String) (c : String) :
    (writeFileSync w p c).cwd = w.cwd := rfl

@[simp] theorem writeFileSync_now (w : World) (p : List String) (c : String) :
    (writeFileSync w p c).now = w.now := rfl

@[simp] theorem writeFileSync_dirname (w : World) (p : List String) (c : String) :
    (writeFileSync w p c).dirname = w.dirname := rfl

@[simp] theorem writeFileSync_home (w : World) (p : List String) (c : String) :
    (writeFileSync w p c).home = w.home := rfl

@[simp] theorem writeFileSync_git (w : World) (p : List String) (c : String) :
    (writeFileSync w p c).git = w.git := rfl

@[simp] theorem writeFileSync_out (w : World) (p : List String) (c : String) :
    (writeFileSync w p c).out = w.out := rfl

@[simp] theorem writeFileSync_err (w : World) (p : List String) (c : String) :
    (writeFileSync w p c).err = w.err := rfl

@[simp] theorem writeFileSync_trace (w : World) (p : List String) (c : String) :
    (writeFileSync w p c).trace = w.trace ++ [.write p c] := rfl

/-- Full characterization of `initializeGit`: no filesystem change, the
working directory restored, the attempted commands traced, one line
logged (a non-fatal warning when any git call fails). -/
theorem initializeGit_eq (w : World) (pp : List String) (pn : String) :
    initializeGit w pp pn =
      { w with out := w.out ++ [gitMsg w.git], trace := w.trace ++ gitEvents w.git pn } := by
  unfold initializeGit gitMsg gitEvents consoleLog
  cases hi : w.git.initOk <;> cases ha : w.git.addOk <;> cases hc : w.git.commitOk <;>
    simp [hi, ha, hc]

@[simp] theorem pathJoin_lit_src (p : List String) : pathJoin p ("src") = p ++ ["src"] := rfl

@[simp] theorem pathJoin_lit_tests (p : List String) : pathJoin p ("tests") = p ++ ["tests"] := rfl

@[simp] theorem pathJoin_lit_docs (p : List String) : pathJoin p ("docs") = p ++ ["docs"] := rfl

@[simp] theorem pathJoin_lit_public (p : List String) : pathJoin p ("public") = p ++ ["public"] := rfl

@[simp] theorem pathJoin_lit_data (p : List String) : pathJoin p ("data") = p ++ ["data"] := rfl

@[simp] theorem pathJoin_lit_bpg (p : List String) :
    pathJoin p ("BestPractices/Generic") = p ++ ["BestPractices", "Generic"] := rfl

@[simp] theorem pathJoin_lit_bpp (p : List String) :
    pathJoin p ("BestPractices/ProjectSpecific") = p ++ ["BestPractices", "ProjectSpecific"] := rfl

@[simp] theorem pathJoin_lit_ktctx (p : List String) :
    pathJoin p (".kt-context") = p ++ [".kt-context"] := rfl

@[simp] theorem pathJoin_lit_pkg (p : List String) :
    pathJoin p ("package.json") = p ++ ["package.json"] := rfl

@[simp] theorem pathJoin_lit_readme (p : List String) :
    pathJoin p ("README.md") = p ++ ["README.md"] := rfl

@[simp] theorem pathJoin_lit_gitignore (p : List String) :
    pathJoin p (".gitignore") = p ++ [".gitignore"] := rfl

@[simp] theorem pathJoin_lit_server (p : List String) :
    pathJoin p ("src/server.js") = p ++ ["src", "server.js"] := rfl

@[simp] theorem pathJoin_lit_test (p : List String) :
    pathJoin p ("tests/test-server.js") = p ++ ["tests", "test-server.js"] := rfl

@[simp] theorem pathJoin_lit_apidocs (p : List String) :
    pathJoin p ("docs/API_DOCUMENTATION.md") = p ++ ["docs", "API_DOCUMENTATION.md"] := rfl

@[simp] theorem pathJoin_lit_datareadme (p : List String) :
    pathJoin p ("data/README.md") = p ++ ["data", "README.md"] := rfl

@[simp] theorem pathJoin_lit_bundled (p : List String) :
    pathJoin p ("../BestPractices/Generic") = p ++ ["..", "BestPractices", "Generic"] := rfl

@[simp] theorem pathJoin_lit_doc1 (p : List String) :
    pathJoin p ("CodeOrganizationFramework.md") = p ++ ["CodeOrganizationFramework.md"] := rfl

@[simp] theorem pathJoin_lit_doc2 (p : List String) :
    pathJoin p ("GitWorkflowPatterns.md") = p ++ ["GitWorkflowPatterns.md"] := rfl

@[simp] theorem pathJoin_lit_doc3 (p : List String) :
    pathJoin p ("DocumentationFramework.md") = p ++ ["DocumentationFramework.md"] := rfl

@[simp] theorem pathJoin_lit_doc4 (p : List String) :
    pathJoin p ("ProtocolEvolutionFramework.md") = p ++ ["ProtocolEvolutionFramework.md"] := rfl

@[simp] theorem pathJoin_lit_aictx (p : List String) :
    pathJoin p ("ai-context.md") = p ++ ["ai-context.md"] := rfl

@[simp] theorem pathJoin_lit_dna (p : List String) :
    pathJoin p (".kt-context/project-dna.json") = p ++ [".kt-context", "project-dna.json"] := rfl

@[simp] theorem pathJoin_lit_ktcli (p : List String) :
    pathJoin p (".kt-cli") = p ++ [".kt-cli"] := rfl

@[simp] theorem pathJoin_lit_templates (p : List String) :
    pathJoin p ("templates") = p ++ ["templates"] := rfl

@[simp] theorem pathJoin_lit_protocols (p : List String) :
    pathJoin p ("protocols") = p ++ ["protocols"] := rfl

@[simp] theorem pathComps_lit_ctxfile :
    pathComps (".kt-context/ai-context.md") = [".kt-context", "ai-context.md"] := rfl

@[simp] theorem createProjectStructure_cwd (w : World) (t : List String) :
    (createProjectStructure w t).cwd = w.cwd := by
  unfold createProjectStructure projectDirs projectFiles
  simp

@[simp] theorem createProjectStructure_out (w : World) (t : List String) :
    (createProjectStructure w t).out = w.out := by
  unfold createProjectStructure projectDirs projectFiles
  simp

@[simp] theorem createProjectStructure_err (w : World) (t : List String) :
    (createProjectStructure w t).err = w.err := by
  unfold createProjectStructure projectDirs projectFiles
  simp

@[simp] theorem createProjectStructure_now (w : World) (t : List String) :
    (createProjectStructure w t).now = w.now := by
  unfold createProjectStructure projectDirs projectFiles
  simp

@[simp] theorem createProjectStructure_git (w : World) (t : List String) :
    (createProjectStructure w t).git = w.git := by
  unfold createProjectStructure projectDirs projectFiles
  simp

@[simp] theorem createProjectStructure_dirname (w : World) (t : List String) :
    (createProjectStructure w t).dirname = w.dirname := by
  unfold createProjectStructure projectDirs projectFiles
  simp

@[simp] theorem createProjectStructure_home (w : World) (t : List String) :
    (createProjectStructure w t).home = w.home := by
  unfold createProjectStructure projectDirs projectFiles
  simp

theorem createProjectStructure_trace (w : World) (target : List String) :
    (createProjectStructure w target).trace =
      w.trace ++ (specPaths target).map FsOp.mkdir ++
        scaffoldWriteOps target (basename w.cwd) (dateOnlyOf w.now) (basename target) := by
  unfold createProjectStructure projectDirs projectFiles specPaths scaffoldWriteOps
  simp [projectDirs, List.append_assoc]

theorem createProjectStructure_fs (w : World) (target : List String)
    (hE : (w.fs.mkdirp target).lookup target = some (.dir [])) :
    (createProjectStructure w target).fs =
      (w.fs.mkdirp target).updateAt target
        (scaffoldFun (basename w.cwd) (dateOnlyOf w.now) (basename target)) := by
  unfold createProjectStructure projectDirs projectFiles
  simp only [List.foldl_cons, List.foldl_nil, mkdirSync_fs, writeFileSync_fs,
    mkdirSync_cwd, writeFileSync_cwd, mkdirSync_now, writeFileSync_now,
    pathJoin_lit_src, pathJoin_lit_tests, pathJoin_lit_docs, pathJoin_lit_public,
    pathJoin_lit_data, pathJoin_lit_bpg, pathJoin_lit_bpp, pathJoin_lit_ktctx,
    pathJoin_lit_pkg, pathJoin_lit_readme, pathJoin_lit_gitignore,
    pathJoin_lit_server, pathJoin_lit_test, pathJoin_lit_apidocs,
    pathJoin_lit_datareadme]
  rw [show w.fs.mkdirp target = (w.fs.mkdirp target).updateAt target (fun t => t) from
    (updateAt_id _ _).symm]
  rw [step_mkdirp hE, step_mkdirp hE, step_mkdirp hE, step_mkdirp hE,
    step_mkdirp hE, step_mkdirp hE, step_mkdirp hE, step_mkdirp hE,
    step_write hE _ _ _ (by decide), step_write hE _ _ _ (by decide),
    step_write hE _ _ _ (by decide), step_write hE _ _ _ (by decide),
    step_write hE _ _ _ (by decide), step_write hE _ _ _ (by decide),
    step_write hE _ _ _ (by decide)]
  rw [updateAt_updateAt]
  rfl

/-- `setupProtocols` in the fallback branch: the bundled reference
directory is absent and the target directory already exists. -/
theorem setupProtocols_absent (w : World) (target : List String)
    (hsp : existsSync w (pathJoin w.dirname ("../BestPractices/Generic")) = false)
    (hGen : ((w.fs.lookup (target ++ ["BestPractices", "Generic"])).isSome) = true) :
    setupProtocols w target = { w with
      fs := (((w.fs.writeFile (target ++ ["BestPractices", "Generic", "CodeOrganizationFramework.md"]) codeOrgContent).writeFile
        (target ++ ["BestPractices", "Generic", "GitWorkflowPatterns.md"]) gitWorkflowContent).writeFile
        (target ++ ["BestPractices", "Generic", "DocumentationFramework.md"]) docsFrameworkContent).writeFile
        (target ++ ["BestPractices", "Generic", "ProtocolEvolutionFramework.md"]) protocolEvolutionContent,
      out := w.out ++ ["📚 Setting up Knowledge Transfer Protocols...",
        "✅ Created basic Knowledge Transfer Protocols"],
      trace := w.trace ++
        [.write (target ++ ["BestPractices", "Generic", "CodeOrganizationFramework.md"]) codeOrgContent,
         .write (target ++ ["BestPractices", "Generic", "GitWorkflowPatterns.md"]) gitWorkflowContent,
         .write (target ++ ["BestPractices", "Generic", "DocumentationFramework.md"]) docsFrameworkContent,
         .write (target ++ ["BestPractices", "Generic", "ProtocolEvolutionFramework.md"]) protocolEvolutionContent] } := by
  unfold setupProtocols createBasicProtocols
  simp only [consoleLog_fs, consoleLog_dirname, pathJoin_lit_bundled, pathJoin_lit_bpg,
    pathJoin_lit_doc1, pathJoin_lit_doc2, pathJoin_lit_doc3, pathJoin_lit_doc4]
  rw [show existsSync (consoleLog w ("📚 Setting up Knowledge Transfer Protocols...")) (w.dirname ++ ["..", "BestPractices", "Generic"]) = false from hsp]
  rw [show existsSync (consoleLog w ("📚 Setting up Knowledge Transfer Protocols...")) (target ++ ["BestPractices", "Generic"]) = true from hGen]
  simp only [Bool.false_eq_true, if_false, if_true]
  ext : 1 <;> simp [List.append_assoc]

/-- `setupProtocols` in the copy branch, when the bundled reference
path holds a directory. -/
theorem setupProtocols_present_dir (w : World) (target : List String)
    (items : List (String × FsEntry))
    (hsub : w.fs.lookup (pathJoin w.dirname ("../BestPractices/Generic")) = some (.dir items))
    (hGen : ((w.fs.lookup (target ++ ["BestPractices", "Generic"])).isSome) = true) :
    setupProtocols w target =
      copyList (consoleLog w ("📚 Setting up Knowledge Transfer Protocols..."))
        (target ++ ["BestPractices", "Generic"]) items := by
  unfold setupProtocols copyDirectory
  simp only [consoleLog_fs, consoleLog_dirname, pathJoin_lit_bundled, pathJoin_lit_bpg]
  rw [show existsSync (consoleLog w ("📚 Setting up Knowledge Transfer Protocols...")) (w.dirname ++ ["..", "BestPractices", "Generic"]) = true by
    simp [existsSync]
    rw [show w.fs.lookup (w.dirname ++ ["..", "BestPractices", "Generic"]) = some (.dir items) by simpa using hsub]
    rfl]
  rw [show existsSync (consoleLog w ("📚 Setting up Knowledge Transfer Protocols...")) (target ++ ["BestPractices", "Generic"]) = true from hGen]
  simp only [if_true]
  rw [show (consoleLog w ("📚 Setting up Knowledge Transfer Protocols...")).fs.lookup (w.dirname ++ ["..", "BestPractices", "Generic"]) = some (.dir items) by simpa using hsub]

/-- `setupProtocols` in the copy branch, when the bundled reference
path holds a file (`readdirSync` would throw in Node; the embedding
models the call as a no-op — no modelled run reaches this case). -/
theorem setupProtocols_present_file (w : World) (target : List String) (c : String)
    (hsub : w.fs.lookup (pathJoin w.dirname ("../BestPractices/Generic")) = some (.file c))
    (hGen : ((w.fs.lookup (target ++ ["BestPractices", "Generic"])).isSome) = true) :
    setupProtocols w target =
      consoleLog w ("📚 Setting up Knowledge Transfer Protocols...") := by
  unfold setupProtocols copyDirectory
  simp only [consoleLog_fs, consoleLog_dirname, pathJoin_lit_bundled, pathJoin_lit_bpg]
  rw [show existsSync (consoleLog w ("📚 Setting up Knowledge Transfer Protocols...")) (w.dirname ++ ["..", "BestPractices", "Generic"]) = true by
    simp [existsSync]
    rw [show w.fs.lookup (w.dirname ++ ["..", "BestPractices", "Generic"]) = some (.file c) by simpa using hsub]
    rfl]
  rw [show existsSync (consoleLog w ("📚 Setting up Knowledge Transfer Protocols...")) (target ++ ["BestPractices", "Generic"]) = true from hGen]
  simp only [if_true]
  rw [show (consoleLog w ("📚 Setting up Knowledge Transfer Protocols...")).fs.lookup (w.dirname ++ ["..", "BestPractices", "Generic"]) = some (.file c) by simpa using hsub]

/-- `generateAIContext` when the hidden context directory already
exists (always the case after the scaffold phase). -/
theorem generateAIContext_eq (w : World) (target : List String) (name : String)
    (hctx : ((w.fs.lookup (target ++ [".kt-context"])).isSome) = true) :
    generateAIContext w target name = { w with
      fs := (w.fs.writeFile (target ++ [".kt-context", "ai-context.md"])
              (aiContextTemplate name w.now)).writeFile
              (target ++ [".kt-context", "project-dna.json"])
              (renderJson (projectDNAValue name w.now) 0),
      out := w.out ++ ["🤖 Generating comprehensive AI Assistant context...",
        "✅ Complete AI context generated: .kt-context/ai-context.md",
        "📝 Simple AI prompt: \"Please read and apply the context from .kt-context/ai-context.md\"",
        "🎯 This file contains everything - no external references needed!"],
      trace := w.trace ++
        [.write (target ++ [".kt-context", "ai-context.md"]) (aiContextTemplate name w.now),
         .write (target ++ [".kt-context", "project-dna.json"])
           (renderJson (projectDNAValue name w.now) 0)] } := by
  unfold generateAIContext
  simp only [consoleLog_fs, consoleLog_now, pathJoin_lit_ktctx, pathJoin_lit_aictx,
    pathJoin_lit_dna]
  rw [show existsSync (consoleLog w ("🤖 Generating comprehensive AI Assistant context...")) (target ++ [".kt-context"]) = true from hctx]
  simp only [if_true]
  ext : 1 <;> simp [List.append_assoc]

/-- The successful `new <name>` pipeline, as written in `createProject`. -/
theorem createProject_chain (w : World) (name : String)
    (hne : ¬ name = "")
    (hex : existsSync w (pathJoin w.cwd name) = false) :
    createProject w (some name) =
      consoleLog (consoleLog (consoleLog (consoleLog (consoleLog (consoleLog
        (initializeGit
          (generateAIContext
            (setupProtocols
              (createProjectStructure
                (consoleLog w ("🚀 Creating AI-ready project: " ++ name))
                (pathJoin w.cwd name))
              (pathJoin w.cwd name))
            (pathJoin w.cwd name) name)
          (pathJoin w.cwd name) name)
        ("✅ Project " ++ name ++ " created successfully!"))
        ("📁 Location: " ++ renderPath (pathJoin w.cwd name)))
        ("🤖 AI Context: " ++ renderPath (pathJoin w.cwd name) ++ "/.kt-context/ai-context.md"))
        ("\n📋 Next steps:"))
        ("   cd " ++ name))
        ("   kt-cli ai prepare  # Share context with AI assistant") := by
  simp only [createProject, hne, hex, Bool.false_eq_true, if_false, ite_false]

theorem scaffoldFun_eval (a b c : String) :
    scaffoldFun a b c (.dir []) = projTree a b c [] [] := rfl

theorem absent_tree_eval (a b c nm now : String) :
    contextFun nm now (protocolsFun (scaffoldFun a b c (.dir []))) =
      projTree a b c genericProtocolsListing (contextListing nm now) := rfl

theorem noprot_tree_eval (a b c nm now : String) :
    contextFun nm now (scaffoldFun a b c (.dir [])) =
      projTree a b c [] (contextListing nm now) := rfl

/-- `copyList` only touches the filesystem and the trace. -/
theorem copyList_misc (w : World) (dest : List String)
    (items : List (String × FsEntry)) :
    (copyList w dest items).cwd = w.cwd ∧ (copyList w dest items).now = w.now ∧
    (copyList w dest items).git = w.git ∧ (copyList w dest items).out = w.out ∧
    (copyList w dest items).err = w.err ∧ (copyList w dest items).dirname = w.dirname ∧
    (copyList w dest items).home = w.home := by
  induction w, dest, items using copyList.induct with
  | case1 w dest => simp [copyList]
  | case2 w dest n c rest ih =>
    rw [copyList]
    obtain ⟨h1, h2, h3, h4, h5, h6, h7⟩ := ih
    exact ⟨h1, h2, h3, h4, h5, h6, h7⟩
  | case3 w dest n sub rest w1 ih1 ih2 ih3 =>
    rw [copyList]
    have hw1 : (if existsSync w (dest ++ [n]) = true then w
        else mkdirSync w (dest ++ [n])) = w1 := dite_eq_ite.symm
    rw [hw1]
    obtain ⟨a1, a2, a3, a4, a5, a6, a7⟩ := ih1
    obtain ⟨b1, b2, b3, b4, b5, b6, b7⟩ := ih3
    have hmisc : w1.cwd = w.cwd ∧ w1.now = w.now ∧ w1.git = w.git ∧ w1.out = w.out ∧
        w1.err = w.err ∧ w1.dirname = w.dirname ∧ w1.home = w.home := by
      rw [← hw1]
      by_cases he : existsSync w (dest ++ [n]) <;> simp [he, mkdirSync]
    obtain ⟨c1, c2, c3, c4, c5, c6, c7⟩ := hmisc
    rw [b1, b2, b3, b4, b5, b6, b7, a1, a2, a3, a4, a5, a6, a7]
    exact ⟨c1, c2, c3, c4, c5, c6, c7⟩

theorem gitEvents_not_mkdir (g : GitEnv) (n : String) (op : FsOp)
    (hop : op ∈ gitEvents g n) (p : List String) : op ≠ FsOp.mkdir p := by
  unfold gitEvents at hop
  cases hi : g.initOk <;> cases ha : g.addOk <;>
    rw [hi, ha] at hop <;> simp at hop <;>
    rcases hop with rfl | rfl | rfl <;> simp

theorem specPaths_length (target : List String) :
    ∀ p ∈ specPaths target, p.length ≤ target.length + 2 := by
  intro p hp
  simp [specPaths, projectDirs] at hp
  rcases hp with rfl | rfl | rfl | rfl | rfl | rfl | rfl | rfl | rfl <;> simp

theorem createProject_spec (w : World) (name : String) (target : List String)
    (htarget : target = pathJoin w.cwd name)
    (hne : ¬ name = "")
    (hex : existsSync w target = false)
    (hcan : w.fs.canMkdirp target = true) :
    ((createProject w (some name)).cwd = w.cwd) ∧
    ((createProject w (some name)).now = w.now) ∧
    (∀ p ∈ specPaths target, (createProject w (some name)).fs.isDirAt p = true) ∧
    ((createProject w (some name)).fs.readFile (target ++ ["package.json"]) =
      some (generatePackageJson (basename target))) ∧
    ((createProject w (some name)).fs.readFile (target ++ ["README.md"]) =
      some (generateReadme (basename target))) ∧
    ((createProject w (some name)).fs.readFile (target ++ [".gitignore"]) =
      some generateGitignore) ∧
    ((createProject w (some name)).fs.readFile (target ++ ["src", "server.js"]) =
      some (generateServerTemplate (basename w.cwd) (dateOnlyOf w.now))) ∧
    ((createProject w (some name)).fs.readFile (target ++ ["tests", "test-server.js"]) =
      some generateTestTemplate) ∧
    ((createProject w (some name)).fs.readFile (target ++ ["docs", "API_DOCUMENTATION.md"]) =
      some generateAPIDocsTemplate) ∧
    ((createProject w (some name)).fs.readFile (target ++ ["data", "README.md"]) =
      some dataReadmeContent) ∧
    ((createProject w (some name)).fs.readFile (target ++ [".kt-context", "ai-context.md"]) =
      some (aiContextTemplate name w.now)) ∧
    ((createProject w (some name)).fs.readFile (target ++ [".kt-context", "project-dna.json"]) =
      some (renderJson (projectDNAValue name w.now) 0)) ∧
    (∃ rest, (createProject w (some name)).trace =
        w.trace ++ (specPaths target).map FsOp.mkdir ++ rest ∧
      ∀ op ∈ rest, ∀ p ∈ specPaths target, op ≠ FsOp.mkdir p) := by
  have hlookn : w.fs.lookup target = none := by
    cases hl : w.fs.lookup target with
    | none => rfl
    | some s => rw [existsSync, hl] at hex; simp at hex
  have hE : (w.fs.mkdirp target).lookup target = some (.dir []) :=
    mkdirp_lookup_fresh _ _ hcan hlookn
  have hchain := createProject_chain w name hne (by rw [← htarget]; exact hex)
  rw [← htarget] at hchain
  rw [hchain]
  set WA := consoleLog w ("🚀 Creating AI-ready project: " ++ name) with hWA
  set WB := createProjectStructure WA target with hWB
  have hBfs : WB.fs = (w.fs.mkdirp target).updateAt target
      (scaffoldFun (basename w.cwd) (dateOnlyOf w.now) (basename target)) := by
    rw [hWB, hWA]
    have h := createProjectStructure_fs
      (consoleLog w ("🚀 Creating AI-ready project: " ++ name)) target hE
    simpa using h
  have hBtrace : WB.trace = w.trace ++ (specPaths target).map FsOp.mkdir ++
      scaffoldWriteOps target (basename w.cwd) (dateOnlyOf w.now) (basename target) := by
    rw [hWB, hWA]
    have h := createProjectStructure_trace
      (consoleLog w ("🚀 Creating AI-ready project: " ++ name)) target
    simpa using h
  have hGen : ((WB.fs.lookup (target ++ ["BestPractices", "Generic"])).isSome) = true := by
    rw [hBfs, lookup_updateAt_append _ _ _ _ _ hE, scaffoldFun_eval]
    rfl
  have hdirB : WB.dirname = w.dirname := by rw [hWB, hWA]; simp
  have hgitB : WB.git = w.git := by rw [hWB, hWA]; simp
  have hcwdB : WB.cwd = w.cwd := by rw [hWB, hWA]; simp
  have hnowB : WB.now = w.now := by rw [hWB, hWA]; simp
  cases hlk : WB.fs.lookup (w.dirname ++ ["..", "BestPractices", "Generic"]) with
  | none =>
    have hsp : existsSync WB (pathJoin WB.dirname ("../BestPractices/Generic")) = false := by
      simp [existsSync, hdirB, hlk]
    rw [setupProtocols_absent WB target hsp hGen]
    rw [generateAIContext_eq _ target name ?hctx]
    case hctx =>
      simp only []
      rw [hBfs]
      rw [step_write hE _ _ _ (by decide), step_write hE _ _ _ (by decide),
        step_write hE _ _ _ (by decide), step_write hE _ _ _ (by decide)]
      rw [lookup_updateAt_append _ _ _ _ _ hE]
      rfl
    rw [initializeGit_eq]
    simp only [hnowB, hgitB, hcwdB]
    have hDfs : (((((WB.fs.writeFile (target ++ ["BestPractices", "Generic", "CodeOrganizationFramework.md"])
          codeOrgContent).writeFile
        (target ++ ["BestPractices", "Generic", "GitWorkflowPatterns.md"]) gitWorkflowContent).writeFile
        (target ++ ["BestPractices", "Generic", "DocumentationFramework.md"]) docsFrameworkContent).writeFile
        (target ++ ["BestPractices", "Generic", "ProtocolEvolutionFramework.md"]) protocolEvolutionContent).writeFile
        (target ++ [".kt-context", "ai-context.md"]) (aiContextTemplate name w.now)).writeFile
        (target ++ [".kt-context", "project-dna.json"]) (renderJson (projectDNAValue name w.now) 0) =
        (w.fs.mkdirp target).updateAt target
          (fun t => contextFun name w.now (protocolsFun
            (scaffoldFun (basename w.cwd) (dateOnlyOf w.now) (basename target) t))) := by
      rw [hBfs]
      rw [step_write hE _ _ _ (by decide), step_write hE _ _ _ (by decide),
        step_write hE _ _ _ (by decide), step_write hE _ _ _ (by decide),
        step_write hE _ _ _ (by decide), step_write hE _ _ _ (by decide)]
      rfl
    rw [hDfs]
    have hDread : ∀ q v, (projTree (basename w.cwd) (dateOnlyOf w.now) (basename target)
          genericProtocolsListing (contextListing name w.now)).readFile q = v →
        ((w.fs.mkdirp target).updateAt target
          (fun t => contextFun name w.now (protocolsFun
            (scaffoldFun (basename w.cwd) (dateOnlyOf w.now) (basename target) t)))).readFile (target ++ q) = v := by
      intro q v hq
      rw [step_readFile hE]
      simpa only [absent_tree_eval] using hq
    have hDdir : ∀ q, (projTree (basename w.cwd) (dateOnlyOf w.now) (basename target)
          genericProtocolsListing (contextListing name w.now)).isDirAt q = true →
        ((w.fs.mkdirp target).updateAt target
          (fun t => contextFun name w.now (protocolsFun
            (scaffoldFun (basename w.cwd) (dateOnlyOf w.now) (basename target) t)))).isDirAt (target ++ q) = true := by
      intro q hq
      rw [step_isDirAt hE]
      simpa only [absent_tree_eval] using hq
    refine ⟨rfl, rfl, ?_, hDread _ _ rfl, hDread _ _ rfl, hDread _ _ rfl, hDread _ _ rfl,
      hDread _ _ rfl, hDread _ _ rfl, hDread _ _ rfl, hDread _ _ rfl, hDread _ _ rfl, ?_⟩
    · intro p hp
      simp [specPaths, projectDirs] at hp
      rcases hp with rfl | rfl | rfl | rfl | rfl | rfl | rfl | rfl | rfl
      · simpa using hDdir [] rfl
      · exact hDdir ["src"] rfl
      · exact hDdir ["tests"] rfl
      · exact hDdir ["docs"] rfl
      · exact hDdir ["public"] rfl
      · exact hDdir ["data"] rfl
      · exact hDdir ["BestPractices", "Generic"] rfl
      · exact hDdir ["BestPractices", "ProjectSpecific"] rfl
      · exact hDdir [".kt-context"] rfl
    · refine ⟨scaffoldWriteOps target (basename w.cwd) (dateOnlyOf w.now) (basename target) ++
        ([.write (target ++ ["BestPractices", "Generic", "CodeOrganizationFramework.md"]) codeOrgContent,
          .write (target ++ ["BestPractices", "Generic", "GitWorkflowPatterns.md"]) gitWorkflowContent,
          .write (target ++ ["BestPractices", "Generic", "DocumentationFramework.md"]) docsFrameworkContent,
          .write (target ++ ["BestPractices", "Generic", "ProtocolEvolutionFramework.md"]) protocolEvolutionContent] ++
         ([.write (target ++ [".kt-context", "ai-context.md"]) (aiContextTemplate name w.now),
           .write (target ++ [".kt-context", "project-dna.json"]) (renderJson (projectDNAValue name w.now) 0)] ++
          gitEvents w.git name)), ?_, ?_⟩
      · rw [hBtrace]
        simp [List.append_assoc]
      · intro op hop p hp
        rcases List.mem_append.mp hop with h | h
        · simp [scaffoldWriteOps] at h
          rcases h with rfl | rfl | rfl | rfl | rfl | rfl | rfl <;> simp
        · rcases List.mem_append.mp h with h | h
          · simp at h
            rcases h with rfl | rfl | rfl | rfl <;> simp
          · rcases List.mem_append.mp h with h | h
            · simp at h
              rcases h with rfl | rfl <;> simp
            · exact gitEvents_not_mkdir _ _ _ h p
  | some e =>
    cases e with
    | file c =>
      have hsub : WB.fs.lookup (pathJoin WB.dirname ("../BestPractices/Generic")) =
          some (.file c) := by
        rw [pathJoin_lit_bundled, hdirB]
        exact hlk
      rw [setupProtocols_present_file WB target c hsub hGen]
      rw [generateAIContext_eq _ target name ?hctxf]
      case hctxf =>
        simp only [consoleLog_fs]
        rw [hBfs]
        rw [lookup_updateAt_append _ _ _ _ _ hE]
        rfl
      rw [initializeGit_eq]
      simp only [hnowB, hgitB, hcwdB, consoleLog_fs, consoleLog_now, consoleLog_git,
        consoleLog_cwd, consoleLog_trace, consoleLog_out, consoleLog_err]
      have hDfs : (WB.fs.writeFile
          (target ++ [".kt-context", "ai-context.md"]) (aiContextTemplate name w.now)).writeFile
          (target ++ [".kt-context", "project-dna.json"]) (renderJson (projectDNAValue name w.now) 0) =
          (w.fs.mkdirp target).updateAt target
            (fun t => contextFun name w.now
              (scaffoldFun (basename w.cwd) (dateOnlyOf w.now) (basename target) t)) := by
        rw [hBfs]
        rw [step_write hE _ _ _ (by decide), step_write hE _ _ _ (by decide)]
        rfl
      rw [hDfs]
      have hDread : ∀ q v, (projTree (basename w.cwd) (dateOnlyOf w.now) (basename target)
            [] (contextListing name w.now)).readFile q = v →
          ((w.fs.mkdirp target).updateAt target
            (fun t => contextFun name w.now
              (scaffoldFun (basename w.cwd) (dateOnlyOf w.now) (basename target) t))).readFile (target ++ q) = v := by
        intro q v hq
        rw [step_readFile hE]
        simpa only [noprot_tree_eval] using hq
      have hDdir : ∀ q, (projTree (basename w.cwd) (dateOnlyOf w.now) (basename target)
            [] (contextListing name w.now)).isDirAt q = true →
          ((w.fs.mkdirp target).updateAt target
            (fun t => contextFun name w.now
              (scaffoldFun (basename w.cwd) (dateOnlyOf w.now) (basename target) t))).isDirAt (target ++ q) = true := by
        intro q hq
        rw [step_isDirAt hE]
        simpa only [noprot_tree_eval] using hq
      refine ⟨trivial, trivial, ?_, hDread _ _ rfl, hDread _ _ rfl, hDread _ _ rfl, hDread _ _ rfl,
        hDread _ _ rfl, hDread _ _ rfl, hDread _ _ rfl, hDread _ _ rfl, hDread _ _ rfl, ?_⟩
      · intro p hp
        simp [specPaths, projectDirs] at hp
        rcases hp with rfl | rfl | rfl | rfl | rfl | rfl | rfl | rfl | rfl
        · simpa using hDdir [] rfl
        · exact hDdir ["src"] rfl
        · exact hDdir ["tests"] rfl
        · exact hDdir ["docs"] rfl
        · exact hDdir ["public"] rfl
        · exact hDdir ["data"] rfl
        · exact hDdir ["BestPractices", "Generic"] rfl
        · exact hDdir ["BestPractices", "ProjectSpecific"] rfl
        · exact hDdir [".kt-context"] rfl
      · refine ⟨scaffoldWriteOps target (basename w.cwd) (dateOnlyOf w.now) (basename target) ++
          ([.write (target ++ [".kt-context", "ai-context.md"]) (aiContextTemplate name w.now),
            .write (target ++ [".kt-context", "project-dna.json"]) (renderJson (projectDNAValue name w.now) 0)] ++
           gitEvents w.git name), ?_, ?_⟩
        · rw [hBtrace]
          simp [List.append_assoc]
        · intro op hop p hp
          rcases List.mem_append.mp hop with h | h
          · simp [scaffoldWriteOps] at h
            rcases h with rfl | rfl | rfl | rfl | rfl | rfl | rfl <;> simp
          · rcases List.mem_append.mp h with h | h
            · simp at h
              rcases h with rfl | rfl <;> simp
            · exact gitEvents_not_mkdir _ _ _ h p
    | dir items =>
      have hsub : WB.fs.lookup (pathJoin WB.dirname ("../BestPractices/Generic")) =
          some (.dir items) := by
        rw [pathJoin_lit_bundled, hdirB]
        exact hlk
      rw [setupProtocols_present_dir WB target items hsub hGen]
      -- facts about the copy destination state
      have hpredir : ∀ q, (projTree (basename w.cwd) (dateOnlyOf w.now) (basename target)
            [] []).isDirAt q = true →
          (consoleLog WB ("📚 Setting up Knowledge Transfer Protocols...")).fs.isDirAt (target ++ q) = true := by
        intro q hq
        simp only [consoleLog_fs]
        rw [hBfs, step_isDirAt hE]
        simpa only [scaffoldFun_eval] using hq
      have hpreread : ∀ q v, (projTree (basename w.cwd) (dateOnlyOf w.now) (basename target)
            [] []).readFile q = v →
          (consoleLog WB ("📚 Setting up Knowledge Transfer Protocols...")).fs.readFile (target ++ q) = v := by
        intro q v hq
        simp only [consoleLog_fs]
        rw [hBfs, step_readFile hE]
        simpa only [scaffoldFun_eval] using hq
      have hkcdir : (copyList (consoleLog WB ("📚 Setting up Knowledge Transfer Protocols..."))
          (target ++ ["BestPractices", "Generic"]) items).fs.isDirAt (target ++ [".kt-context"]) = true := by
        apply copyList_isDirAt
        · exact untouched_of_length_le (by
            simp only [List.length_append, List.length_cons, List.length_nil]
            omega)
        · exact hpredir [".kt-context"] rfl
      rw [generateAIContext_eq _ target name (isSome_of_isDirAt _ _ hkcdir)]
      rw [initializeGit_eq]
      obtain ⟨hccwd, hcnow, hcgit, hcout, hcerr, hcdir2, hchome⟩ :=
        copyList_misc (consoleLog WB ("📚 Setting up Knowledge Transfer Protocols..."))
          (target ++ ["BestPractices", "Generic"]) items
      simp only [hccwd, hcnow, hcgit, consoleLog_cwd, consoleLog_now, consoleLog_git,
        hnowB, hgitB, hcwdB]
      have hcread : ∀ q v, q.length ≤ 2 →
          (projTree (basename w.cwd) (dateOnlyOf w.now) (basename target) [] []).readFile q = v →
          (copyList (consoleLog WB ("📚 Setting up Knowledge Transfer Protocols..."))
            (target ++ ["BestPractices", "Generic"]) items).fs.readFile (target ++ q) = v := by
        intro q v hlen hq
        rw [copyList_readFile]
        · exact hpreread q v hq
        · exact untouched_of_length_le (by
            simp only [List.length_append, List.length_cons, List.length_nil]
            omega)
      have hcdir : ∀ q, q.length ≤ 2 →
          (projTree (basename w.cwd) (dateOnlyOf w.now) (basename target) [] []).isDirAt q = true →
          (copyList (consoleLog WB ("📚 Setting up Knowledge Transfer Protocols..."))
            (target ++ ["BestPractices", "Generic"]) items).fs.isDirAt (target ++ q) = true := by
        intro q hlen hq
        apply copyList_isDirAt
        · exact untouched_of_length_le (by
            simp only [List.length_append, List.length_cons, List.length_nil]
            omega)
        · exact hpredir q hq
      have hnp1 : ∀ (x : String) (q : List String), ¬ (q <+: [x]) →
          ¬ (target ++ [".kt-context", x] <+: target ++ [".kt-context"] ++ q) → True := fun _ _ _ _ => trivial
      -- final reads through the two context writes
      have hfread : ∀ q v, q.length ≤ 2 →
          (¬ [".kt-context", "ai-context.md"] <+: q) →
          (¬ [".kt-context", "project-dna.json"] <+: q) →
          (projTree (basename w.cwd) (dateOnlyOf w.now) (basename target) [] []).readFile q = v →
          (((copyList (consoleLog WB ("📚 Setting up Knowledge Transfer Protocols..."))
              (target ++ ["BestPractices", "Generic"]) items).fs.writeFile
                (target ++ [".kt-context", "ai-context.md"]) (aiContextTemplate name w.now)).writeFile
                (target ++ [".kt-context", "project-dna.json"])
                (renderJson (projectDNAValue name w.now) 0)).readFile (target ++ q) = v := by
        intro q v hlen h1 h2 hq
        rw [readFile_writeFile _ _ _ _ (by rw [prefix_append_cancel]; exact h2)]
        rw [readFile_writeFile _ _ _ _ (by rw [prefix_append_cancel]; exact h1)]
        exact hcread q v hlen hq
      have hfdir : ∀ q, q.length ≤ 2 →
          (¬ [".kt-context", "ai-context.md"] <+: q) →
          (¬ [".kt-context", "project-dna.json"] <+: q) →
          (projTree (basename w.cwd) (dateOnlyOf w.now) (basename target) [] []).isDirAt q = true →
          (((copyList (consoleLog WB ("📚 Setting up Knowledge Transfer Protocols..."))
              (target ++ ["BestPractices", "Generic"]) items).fs.writeFile
                (target ++ [".kt-context", "ai-context.md"]) (aiContextTemplate name w.now)).writeFile
                (target ++ [".kt-context", "project-dna.json"])
                (renderJson (projectDNAValue name w.now) 0)).isDirAt (target ++ q) = true := by
        intro q hlen h1 h2 hq
        apply isDirAt_writeFile _ _ _ _ (by rw [prefix_append_cancel]; exact h2)
        apply isDirAt_writeFile _ _ _ _ (by rw [prefix_append_cancel]; exact h1)
        exact hcdir q hlen hq
      refine ⟨trivial, trivial, ?_, ?_, ?_, ?_, ?_, ?_, ?_, ?_, ?_, ?_, ?_⟩
      · intro p hp
        simp [specPaths, projectDirs] at hp
        rcases hp with rfl | rfl | rfl | rfl | rfl | rfl | rfl | rfl | rfl
        · simpa using hfdir [] (by decide) (by decide) (by decide) rfl
        · exact hfdir ["src"] (by decide) (by decide) (by decide) rfl
        · exact hfdir ["tests"] (by decide) (by decide) (by decide) rfl
        · exact hfdir ["docs"] (by decide) (by decide) (by decide) rfl
        · exact hfdir ["public"] (by decide) (by decide) (by decide) rfl
        · exact hfdir ["data"] (by decide) (by decide) (by decide) rfl
        · exact hfdir ["BestPractices", "Generic"] (by decide) (by decide) (by decide) rfl
        · exact hfdir ["BestPractices", "ProjectSpecific"] (by decide) (by decide) (by decide) rfl
        · exact hfdir [".kt-context"] (by decide) (by decide) (by decide) rfl
      · exact hfread ["package.json"] _ (by decide) (by decide) (by decide) rfl
      · exact hfread ["README.md"] _ (by decide) (by decide) (by decide) rfl
      · exact hfread [".gitignore"] _ (by decide) (by decide) (by decide) rfl
      · exact hfread ["src", "server.js"] _ (by decide) (by decide) (by decide) rfl
      · exact hfread ["tests", "test-server.js"] _ (by decide) (by decide) (by decide) rfl
      · exact hfread ["docs", "API_DOCUMENTATION.md"] _ (by decide) (by decide) (by decide) rfl
      · exact hfread ["data", "README.md"] _ (by decide) (by decide) (by decide) rfl
      · -- the ai-context file itself
        simp only [consoleLog_fs]
        rw [readFile_writeFile _ _ _ _ (by rw [prefix_append_cancel]; decide)]
        have hself := readFile_writeFile_self
          (copyList (consoleLog WB ("📚 Setting up Knowledge Transfer Protocols..."))
            (target ++ ["BestPractices", "Generic"]) items).fs
          (target ++ [".kt-context"]) ("ai-context.md") (aiContextTemplate name w.now) hkcdir
        simpa using hself
      · -- the project-dna file
        have hdna : ((copyList (consoleLog WB ("📚 Setting up Knowledge Transfer Protocols..."))
            (target ++ ["BestPractices", "Generic"]) items).fs.writeFile
              (target ++ [".kt-context", "ai-context.md"]) (aiContextTemplate name w.now)).isDirAt
              (target ++ [".kt-context"]) = true := by
          apply isDirAt_writeFile _ _ _ _ ?_ hkcdir
          intro hpre
          have := hpre.length_le
          simp only [List.length_append, List.length_cons, List.length_nil] at this
          omega
        have hself := readFile_writeFile_self
          ((copyList (consoleLog WB ("📚 Setting up Knowledge Transfer Protocols..."))
            (target ++ ["BestPractices", "Generic"]) items).fs.writeFile
              (target ++ [".kt-context", "ai-context.md"]) (aiContextTemplate name w.now))
          (target ++ [".kt-context"]) ("project-dna.json")
          (renderJson (projectDNAValue name w.now) 0) hdna
        simpa using hself
      · obtain ⟨tr, htr, hall⟩ := copyList_trace
          (consoleLog WB ("📚 Setting up Knowledge Transfer Protocols..."))
          (target ++ ["BestPractices", "Generic"]) items
        refine ⟨scaffoldWriteOps target (basename w.cwd) (dateOnlyOf w.now) (basename target) ++
          (tr ++
           ([.write (target ++ [".kt-context", "ai-context.md"]) (aiContextTemplate name w.now),
             .write (target ++ [".kt-context", "project-dna.json"]) (renderJson (projectDNAValue name w.now) 0)] ++
            gitEvents w.git name)), ?_, ?_⟩
        · rw [htr]
          simp only [consoleLog_trace]
          rw [hBtrace]
          simp [List.append_assoc]
        · intro op hop p hp
          rcases List.mem_append.mp hop with h | h
          · simp [scaffoldWriteOps] at h
            rcases h with rfl | rfl | rfl | rfl | rfl | rfl | rfl <;> simp
          · rcases List.mem_append.mp h with h | h
            · have hu := hall _ h
              cases op with
              | mkdir q =>
                obtain ⟨n, t, rfl⟩ := hu
                intro heq
                have heq2 : target ++ ["BestPractices", "Generic"] ++ n :: t = p :=
                  (FsOp.mkdir.injEq _ _).mp heq
                have hlp := specPaths_length target p hp
                rw [← heq2] at hlp
                simp only [List.length_append, List.length_cons, List.length_nil] at hlp
                omega
              | write q c => simp
              | git c => exact hu.elim
            · rcases List.mem_append.mp h with h | h
              · simp at h
                rcases h with rfl | rfl <;> simp
              · exact gitEvents_not_mkdir _ _ _ h p

theorem setEntry_fresh (es : List (String × FsEntry)) (n : String) (v : FsEntry)
    (h : getEntry es n = none) : setEntry es n v = es ++ [(n, v)] := by
  induction es with
  | nil => simp [setEntry]
  | cons kv rest ih =>
    obtain ⟨k, e⟩ := kv
    by_cases hk : k = n
    · simp [getEntry, hk] at h
    · simp [getEntry, hk] at h
      simp [setEntry, hk, ih h]

theorem setEntry_setEntry (es : List (String × FsEntry)) (n : String) (a b : FsEntry) :
    setEntry (setEntry es n a) n b = setEntry es n b := by
  induction es with
  | nil => simp [setEntry]
  | cons kv rest ih =>
    obtain ⟨k, e⟩ := kv
    by_cases hk : k = n <;> simp [setEntry, hk, ih]

theorem getEntry_append_fresh (es : List (String × FsEntry)) (n m : String) (v : FsEntry)
    (h : getEntry es m = none) (hnm : ¬ n = m) :
    getEntry (es ++ [(n, v)]) m = none := by
  induction es with
  | nil => simp [getEntry, hnm]
  | cons kv rest ih =>
    obtain ⟨k, e⟩ := kv
    by_cases hk : k = m
    · simp [getEntry, hk] at h
    · simp [getEntry, hk] at h ⊢
      exact ih h

/-- Localize `updateAt` along an appended path. -/
theorem updateAt_append (e : FsEntry) (p q : List String) (f : FsEntry → FsEntry)
    (s : FsEntry) (h : e.lookup p = some s) :
    e.updateAt (p ++ q) f = e.updateAt p (fun t => t.updateAt q f) := by
  induction p generalizing e with
  | nil => simp [FsEntry.updateAt]
  | cons k ks ih =>
    cases e with
    | file c => simp [FsEntry.lookup] at h
    | dir es =>
      simp only [FsEntry.lookup] at h
      cases hg : getEntry es k with
      | none => simp [hg] at h
      | some e' =>
        rw [hg] at h
        simp [FsEntry.updateAt, hg, ih e' h]

/-- `updateAt` only sees the subtree actually present at `p`. -/
theorem updateAt_const (e : FsEntry) (p : List String) (f : FsEntry → FsEntry)
    (s : FsEntry) (h : e.lookup p = some s) :
    e.updateAt p f = e.updateAt p (fun _ => f s) := by
  induction p generalizing e with
  | nil =>
    simp [FsEntry.lookup] at h
    simp [FsEntry.updateAt, h]
  | cons k ks ih =>
    cases e with
    | file c => simp [FsEntry.lookup] at h
    | dir es =>
      simp only [FsEntry.lookup] at h
      cases hg : getEntry es k with
      | none => simp [hg] at h
      | some e' =>
        rw [hg] at h
        simp [FsEntry.updateAt, hg, ih e' h]

/-- Copying a well-formed snapshot listing into a directory whose
listing is disjoint from it appends exactly that listing: the copy
reproduces every file and subdirectory byte for byte. -/
theorem copyList_exact (w : World) (dest : List String)
    (items : List (String × FsEntry)) :
    ∀ ds, wfList items = true →
      (∀ kv ∈ items, getEntry ds kv.1 = none) →
      w.fs.lookup dest = some (.dir ds) →
      (copyList w dest items).fs = w.fs.updateAt dest (fun _ => .dir (ds ++ items)) := by
  induction w, dest, items using copyList.induct with
  | case1 w dest =>
    intro ds _ _ hdest
    rw [copyList]
    simp [← updateAt_const w.fs dest (fun t => t) _ hdest, updateAt_id]
  | case2 w dest n c rest ih =>
    intro ds hwf hfresh hdest
    rw [copyList]
    have hwf1 : wfList rest = true := by
      simp [wfList] at hwf
      exact hwf.2
    have hnotin : rest.any (fun kv => kv.1 = n) = false := by
      simp [wfList] at hwf
      simpa using hwf.1.1
    have hgn : getEntry ds n = none := hfresh (n, .file c) (by simp)
    have hw' : (writeFileSync w (dest ++ [n]) c).fs =
        w.fs.updateAt dest (fun _ => .dir (ds ++ [(n, .file c)])) := by
      simp only [writeFileSync_fs]
      rw [writeFile_eq_updateAt _ _ _ _ _ hdest (by simp)]
      rw [updateAt_const _ _ _ _ hdest]
      simp [FsEntry.writeFile, setEntry_fresh ds n _ hgn]
    have hdest' : (writeFileSync w (dest ++ [n]) c).fs.lookup dest =
        some (.dir (ds ++ [(n, .file c)])) := by
      rw [hw']
      exact lookup_updateAt_self _ _ _ _ hdest
    have hfresh' : ∀ kv ∈ rest, getEntry (ds ++ [(n, .file c)]) kv.1 = none := by
      intro kv hkv
      refine getEntry_append_fresh _ _ _ _ (hfresh kv (by simp [hkv])) ?_
      intro hnm
      have : rest.any (fun kv2 => kv2.1 = n) = true :=
        List.any_eq_true.mpr ⟨kv, hkv, by simp [hnm]⟩
      rw [this] at hnotin
      simp at hnotin
    rw [ih _ hwf1 hfresh' hdest', hw', updateAt_updateAt]
    simp [List.append_assoc]
  | case3 w dest n sub rest w1 ih1 ih2 ih3 =>
    intro ds hwf hfresh hdest
    rw [copyList]
    have hw1 : (if existsSync w (dest ++ [n]) = true then w
        else mkdirSync w (dest ++ [n])) = w1 := dite_eq_ite.symm
    rw [hw1]
    have hwfsub : wfList sub = true := by
      simp [wfList, wfEntry] at hwf
      exact hwf.1.2
    have hwfrest : wfList rest = true := by
      simp [wfList] at hwf
      exact hwf.2
    have hnotin : rest.any (fun kv => kv.1 = n) = false := by
      simp [wfList] at hwf
      simpa using hwf.1.1
    have hgn : getEntry ds n = none := hfresh (n, .dir sub) (by simp)
    have hnex : existsSync w (dest ++ [n]) = false := by
      simp only [existsSync, lookup_append, hdest]
      simp [FsEntry.lookup, hgn]
    have hw1fs : w1.fs = w.fs.updateAt dest (fun _ => .dir (ds ++ [(n, .dir [])])) := by
      rw [← hw1, hnex]
      simp only [Bool.false_eq_true, if_false, mkdirSync_fs]
      rw [mkdirp_eq_updateAt _ _ _ _ hdest]
      rw [updateAt_const _ _ _ _ hdest]
      simp [FsEntry.mkdirp, getEntry, hgn, setEntry_fresh ds n _ hgn]
    have hw1sub : w1.fs.lookup (dest ++ [n]) = some (.dir []) := by
      rw [hw1fs, lookup_updateAt_append _ _ _ _ _ hdest]
      simp [FsEntry.lookup, getEntry_append_fresh, getEntry_setEntry_self]
      rw [show ds ++ [(n, FsEntry.dir [])] = setEntry ds n (.dir []) from
        (setEntry_fresh ds n _ hgn).symm]
      simp [getEntry_setEntry_self]
    have hinner : (copyList w1 (dest ++ [n]) sub).fs =
        w1.fs.updateAt (dest ++ [n]) (fun _ => .dir ([] ++ sub)) :=
      ih1 [] hwfsub (by intro kv _; simp [getEntry]) hw1sub
    have hw1dest : w1.fs.lookup dest = some (.dir (ds ++ [(n, .dir [])])) := by
      rw [hw1fs]
      exact lookup_updateAt_self _ _ _ _ hdest
    have hinner2 : (copyList w1 (dest ++ [n]) sub).fs =
        w.fs.updateAt dest (fun _ => .dir (ds ++ [(n, .dir sub)])) := by
      rw [hinner, updateAt_append _ _ _ _ _ hw1dest, updateAt_const _ _ _ _ hw1dest, hw1fs,
        updateAt_updateAt]
      congr 1
      funext t
      simp only [List.nil_append]
      have h1 : getEntry (ds ++ [(n, FsEntry.dir [])]) n = some (.dir []) := by
        rw [← setEntry_fresh ds n _ hgn]
        exact getEntry_setEntry_self _ _ _
      simp only [FsEntry.updateAt, h1]
      rw [← setEntry_fresh ds n _ hgn, setEntry_setEntry, setEntry_fresh ds n _ hgn]
    have hdest2 : (copyList w1 (dest ++ [n]) sub).fs.lookup dest =
        some (.dir (ds ++ [(n, .dir sub)])) := by
      rw [hinner2]
      exact lookup_updateAt_self _ _ _ _ hdest
    have hfresh2 : ∀ kv ∈ rest, getEntry (ds ++ [(n, .dir sub)]) kv.1 = none := by
      intro kv hkv
      refine getEntry_append_fresh _ _ _ _ (hfresh kv (by simp [hkv])) ?_
      intro hnm
      have : rest.any (fun kv2 => kv2.1 = n) = true :=
        List.any_eq_true.mpr ⟨kv, hkv, by simp [hnm]⟩
      rw [this] at hnotin
      simp at hnotin
    rw [ih3 _ hwfrest hfresh2 hdest2, hinner2, updateAt_updateAt]
    simp [List.append_assoc]

theorem splitComps_no_slash (cs : List Char)
    (h : cs.any (fun c => c = '/') = false) : splitComps cs = [cs] := by
  induction cs with
  | nil => rfl
  | cons c cs ih =>
    simp only [List.any_cons, Bool.or_eq_false_iff, decide_eq_false_iff_not] at h
    simp [splitComps, ih h.2, h.1]

theorem pathComps_no_slash (s : String) (h : hasSlash s = false) :
    pathComps s = [s] := by
  rw [pathComps, splitComps_no_slash s.data h]
  cases s
  rfl

theorem basename_pathJoin (p : List String) (s : String) (h : hasSlash s = false) :
    basename (pathJoin p s) = s := by
  rw [pathJoin, pathComps_no_slash s h, basename]
  exact List.getLastD_concat _ _ _

/-- A string missing a character of `t` cannot embed `t`. -/
theorem not_embedsStr (s t : String) (c : Char)
    (hct : c ∈ t.data) (hcs : ¬ c ∈ s.data) : ¬ embedsStr s t := by
  rintro ⟨pre, post, h⟩
  apply hcs
  rw [h]
  simp [hct]

/-- The generated server stub embeds the cwd base name it is given. -/
theorem generateServerTemplate_embeds (cwdBase dateOnly : String) :
    embedsStr (generateServerTemplate cwdBase dateOnly) cwdBase := by
  refine ⟨serverTemplatePre.data,
    (serverTemplateMid ++ dateOnly ++ serverTemplateSuf).data, ?_⟩
  simp [generateServerTemplate, List.append_assoc]

@[simp] theorem ensureConfigDir_cwd (w : World) :
    (ensureConfigDir w).cwd = w.cwd := by
  unfold ensureConfigDir
  split <;> simp

@[simp] theorem ensureConfigDir_out (w : World) :
    (ensureConfigDir w).out = w.out := by
  unfold ensureConfigDir
  split <;> simp

@[simp] theorem ensureConfigDir_err (w : World) :
    (ensureConfigDir w).err = w.err := by
  unfold ensureConfigDir
  split <;> simp

@[simp] theorem ensureConfigDir_now (w : World) :
    (ensureConfigDir w).now = w.now := by
  unfold ensureConfigDir
  split <;> simp

/-- The bootstrap can create directories but never changes any file. -/
theorem ensureConfigDir_readFile (w : World) (p : List String) :
    (ensureConfigDir w).fs.readFile p = w.fs.readFile p := by
  unfold ensureConfigDir
  split
  · rfl
  · simp [readFile_mkdirp]

/-- The filesystem after the startup bootstrap, in both branches. -/
theorem ensureConfigDir_fs (w : World) :
    (ensureConfigDir w).fs =
      (if existsSync w (configDir w) then w.fs else
        ((w.fs.mkdirp (configDir w)).mkdirp
          (configDir w ++ ["templates"])).mkdirp (configDir w ++ ["protocols"])) := by
  unfold ensureConfigDir
  split <;> simp

/-- The trace after the startup bootstrap, in both branches. -/
theorem ensureConfigDir_trace (w : World) :
    (ensureConfigDir w).trace =
      (if existsSync w (configDir w) then w.trace else
        w.trace ++ [.mkdir (configDir w), .mkdir (configDir w ++ ["templates"]),
          .mkdir (configDir w ++ ["protocols"])]) := by
  unfold ensureConfigDir
  split <;> simp

/-- C1: for every valid fresh project name, `new <name>` creates the
target directory `<cwd>/<name>` with every DirectorySpec path present as
a directory, every FileSpec file present with its generated content, and
every directory-creation event in the trace preceding every file write. -/
theorem C1_new_scaffolds_spec (w : World) (name : String)
    (hne : ¬ name = "")
    (hex : existsSync w (pathJoin w.cwd name) = false)
    (hcan : w.fs.canMkdirp (pathJoin w.cwd name) = true) :
    ((createProject w (some name)).fs.isDirAt (pathJoin w.cwd name) = true) ∧
    (∀ p ∈ specPaths (pathJoin w.cwd name),
      (createProject w (some name)).fs.isDirAt p = true) ∧
    (∀ fc ∈ fileSpec (pathJoin w.cwd name) (basename w.cwd) (dateOnlyOf w.now),
      (createProject w (some name)).fs.readFile fc.1 = some fc.2) ∧
    (∃ rest, (createProject w (some name)).trace =
        w.trace ++ (specPaths (pathJoin w.cwd name)).map FsOp.mkdir ++ rest ∧
      ∀ op ∈ rest, ∀ p ∈ specPaths (pathJoin w.cwd name), op ≠ FsOp.mkdir p) := by
  obtain ⟨-, -, hdirs, h1, h2, h3, h4, h5, h6, h7, -, -, htr⟩ :=
    createProject_spec w name (pathJoin w.cwd name) rfl hne hex hcan
  refine ⟨hdirs _ (by simp [specPaths]), hdirs, ?_, htr⟩
  intro fc hfc
  simp only [fileSpec, List.mem_cons, List.not_mem_nil, or_false] at hfc
  rcases hfc with rfl | rfl | rfl | rfl | rfl | rfl | rfl
  exacts [h1, h2, h3, h4, h5, h6, h7]

/-- Witness for C1 at a concrete world and name. -/
theorem C1_new_scaffolds_spec_witness :
    ((createProject sampleWorld (some ("myapp"))).fs.isDirAt
      (pathJoin sampleWorld.cwd ("myapp")) = true) ∧
    (∀ fc ∈ fileSpec (pathJoin sampleWorld.cwd ("myapp"))
        (basename sampleWorld.cwd) (dateOnlyOf sampleWorld.now),
      (createProject sampleWorld (some ("myapp"))).fs.readFile fc.1 = some fc.2) := by
  have h := C1_new_scaffolds_spec sampleWorld ("myapp")
    (by decide) (by decide) (by decide)
  exact ⟨h.1, h.2.2.1⟩

/-- C2: `new` with a missing or empty name, or with an already-existing
target directory, only prints an error: filesystem, trace, output and
the existing directory's contents are untouched. -/
theorem C2_invalid_new_rejected (w : World) (pn? : Option String)
    (h : pn? = none ∨ pn? = some "" ∨
      ∃ n, pn? = some n ∧ existsSync w (pathJoin w.cwd n) = true) :
    ((createProject w pn?).fs = w.fs) ∧
    ((createProject w pn?).trace = w.trace) ∧
    ((createProject w pn?).out = w.out) ∧
    (∃ msg, createProject w pn? = { w with err := w.err ++ [msg] }) := by
  rcases h with rfl | rfl | ⟨n, rfl, hex⟩
  · exact ⟨rfl, rfl, rfl, _, rfl⟩
  · exact ⟨rfl, rfl, rfl, _, rfl⟩
  · by_cases hn : n = ""
    · subst hn
      exact ⟨rfl, rfl, rfl, _, rfl⟩
    · have he : createProject w (some n) =
          consoleError w ("❌ Directory " ++ n ++ " already exists") := by
        simp [createProject, hn, hex]
      rw [he]
      exact ⟨rfl, rfl, rfl, _, rfl⟩

/-- Witness for C2 at a world where the target directory already exists. -/
theorem C2_invalid_new_rejected_witness :
    ((createProject sampleWorldExisting (some ("proj"))).fs = sampleWorldExisting.fs) ∧
    ((createProject sampleWorldExisting (some ("proj"))).trace = sampleWorldExisting.trace) ∧
    (∃ msg, createProject sampleWorldExisting (some ("proj")) =
      { sampleWorldExisting with err := sampleWorldExisting.err ++ [msg] }) := by
  have h := C2_invalid_new_rejected sampleWorldExisting (some ("proj"))
    (Or.inr (Or.inr ⟨"proj", rfl, by decide⟩))
  exact ⟨h.1, h.2.1, h.2.2.2⟩

/-- C3: `ai validate`, `ai handoff`, `learn …` and `sync` are no-ops on
the filesystem: the first two only print a usage hint, `learn` falls to
the default help output, `sync` does nothing at all. -/
theorem C3_unimplemented_noop (w : World) (args : List String) :
    (run w ["ai", "validate"] =
      consoleLog w ("kt-cli ai validate is not implemented yet")) ∧
    (run w ["ai", "handoff"] =
      consoleLog w ("kt-cli ai handoff is not implemented yet")) ∧
    (run w ("learn" :: args) = showHelp w) ∧
    (run w ["sync"] = w) ∧
    ((run w ["ai", "validate"]).fs = w.fs) ∧
    ((run w ["ai", "handoff"]).fs = w.fs) ∧
    ((run w ("learn" :: args)).fs = w.fs) ∧
    ((run w ["sync"]).fs = w.fs) ∧
    ((run w ["ai", "validate"]).trace = w.trace) ∧
    ((run w ["ai", "handoff"]).trace = w.trace) ∧
    ((run w ("learn" :: args)).trace = w.trace) ∧
    ((run w ["sync"]).trace = w.trace) :=
  ⟨rfl, rfl, rfl, rfl, rfl, rfl, rfl, rfl, rfl, rfl, rfl, rfl⟩

/-- C7: the version-control step is best-effort: whatever subset of the
git init/add/commit sequence fails, `initializeGit` never changes the
filesystem, restores the working directory, prints exactly one line —
a non-fatal warning unless all three calls succeeded — and returns. -/
theorem C7_git_best_effort (w : World) (projectPath : List String)
    (projectName : String) :
    (initializeGit w projectPath projectName =
      { w with out := w.out ++ [gitMsg w.git],
               trace := w.trace ++ gitEvents w.git projectName }) ∧
    ((initializeGit w projectPath projectName).cwd = w.cwd) ∧
    ((initializeGit w projectPath projectName).fs = w.fs) ∧
    ((initializeGit w projectPath projectName).err = w.err) ∧
    (gitMsg w.git = if w.git.initOk && w.git.addOk && w.git.commitOk then
      "📝 Git repository initialized with conventional commit" else gitWarnMsg) := by
  have he := initializeGit_eq w projectPath projectName
  exact ⟨he, by rw [he], by rw [he], by rw [he], rfl⟩

/-- C9: `version`, a missing command and unrecognized commands never
touch the filesystem or the event trace beyond the one-time startup
bootstrap of the per-user configuration directory. -/
theorem C9_version_frame (w : World) (args : List String)
    (h : args.head? = some ("version") ∨ args.head? = none ∨
      ∃ c, args.head? = some c ∧
        ¬ c ∈ (["new", "ai", "learn", "sync", "version", "help"] : List String)) :
    ((cliMain w args).fs = (ensureConfigDir w).fs) ∧
    ((cliMain w args).trace = (ensureConfigDir w).trace) ∧
    ((ensureConfigDir w).fs =
      (if existsSync w (configDir w) then w.fs else
        ((w.fs.mkdirp (configDir w)).mkdirp
          (configDir w ++ ["templates"])).mkdirp (configDir w ++ ["protocols"]))) ∧
    ((ensureConfigDir w).trace =
      (if existsSync w (configDir w) then w.trace else
        w.trace ++ [.mkdir (configDir w), .mkdir (configDir w ++ ["templates"]),
          .mkdir (configDir w ++ ["protocols"])])) := by
  have hrun : ∀ w' : World,
      (run w' args).fs = w'.fs ∧ (run w' args).trace = w'.trace := by
    intro w'
    rcases h with hv | hn | ⟨c, hc, hmem⟩
    · constructor <;> simp [run, hv]
    · constructor <;> simp [run, hn, showHelp]
    · have h1 : ¬ c = "new" := fun hh => hmem (by rw [hh]; decide)
      have h2 : ¬ c = "ai" := fun hh => hmem (by rw [hh]; decide)
      have h3 : ¬ c = "learn" := fun hh => hmem (by rw [hh]; decide)
      have h4 : ¬ c = "sync" := fun hh => hmem (by rw [hh]; decide)
      have h5 : ¬ c = "version" := fun hh => hmem (by rw [hh]; decide)
      constructor <;> simp [run, hc, h1, h2, h3, h4, h5, showHelp]
  obtain ⟨hfs, htr⟩ := hrun (ensureConfigDir w)
  exact ⟨hfs, htr, ensureConfigDir_fs w, ensureConfigDir_trace w⟩

/-- Witness for C9 at a concrete world and the `version` command. -/
theorem C9_version_frame_witness :
    ((cliMain sampleWorld ["version"]).fs = (ensureConfigDir sampleWorld).fs) ∧
    ((cliMain sampleWorld ["version"]).trace = (ensureConfigDir sampleWorld).trace) := by
  have h := C9_version_frame sampleWorld ["version"] (Or.inl rfl)
  exact ⟨h.1, h.2.1⟩

/-- C10: if the per-user configuration directory already exists at
startup the bootstrap does nothing at all — in particular a
configuration directory that lacks the `templates` or `protocols`
subdirectories is never repaired by a later invocation. -/
theorem C10_config_bootstrap_once (w : World)
    (h : existsSync w (configDir w) = true) :
    (ensureConfigDir w = w) ∧
    (existsSync (ensureConfigDir w) (configDir w ++ ["templates"]) =
      existsSync w (configDir w ++ ["templates"])) ∧
    (existsSync (ensureConfigDir w) (configDir w ++ ["protocols"]) =
      existsSync w (configDir w ++ ["protocols"])) ∧
    ((ensureConfigDir w).trace = w.trace) := by
  have he : ensureConfigDir w = w := by
    unfold ensureConfigDir
    rw [if_pos h]
  rw [he]
  exact ⟨rfl, rfl, rfl, rfl⟩

/-- Witness for C10 at a world whose configuration directory exists but
lacks its subdirectories: they stay missing. -/
theorem C10_config_bootstrap_once_witness :
    (ensureConfigDir sampleWorldCfg = sampleWorldCfg) ∧
    (existsSync (ensureConfigDir sampleWorldCfg)
      (configDir sampleWorldCfg ++ ["templates"]) = false) := by
  have h := C10_config_bootstrap_once sampleWorldCfg (by decide)
  refine ⟨h.1, ?_⟩
  rw [h.2.1]
  decide

/-- C4 (amended): for every accepted project name without a path
separator, the generated `package.json` is the rendering of a JSON
object whose `name` field is exactly the supplied name.  (A name
containing `/` is accepted but yields its basename instead — see the
counterexample.) -/
theorem C4_manifest_name (w : World) (name : String)
    (hne : ¬ name = "")
    (hex : existsSync w (pathJoin w.cwd name) = false)
    (hcan : w.fs.canMkdirp (pathJoin w.cwd name) = true)
    (hnos : hasSlash name = false) :
    ((createProject w (some name)).fs.readFile
      (pathJoin w.cwd name ++ ["package.json"]) =
      some (generatePackageJson name)) ∧
    (generatePackageJson name = renderJson (packageJsonValue name) 0) ∧
    ((packageJsonValue name).lookup ("name") = some (.str name)) := by
  obtain ⟨-, -, -, h1, -⟩ :=
    createProject_spec w name (pathJoin w.cwd name) rfl hne hex hcan
  rw [basename_pathJoin w.cwd name hnos] at h1
  exact ⟨h1, rfl, rfl⟩

set_option maxRecDepth 10000 in
/-- Witness for C4 at a concrete world and name, with the manifest
parsed back by the JSON parser. -/
theorem C4_manifest_name_witness :
    ((createProject sampleWorld (some ("myapp"))).fs.readFile
      (pathJoin sampleWorld.cwd ("myapp") ++ ["package.json"]) =
      some (generatePackageJson ("myapp"))) ∧
    (parseJson (generatePackageJson ("myapp")) = some (packageJsonValue ("myapp"))) ∧
    ((packageJsonValue ("myapp")).lookup ("name") = some (.str ("myapp"))) := by
  have h := C4_manifest_name sampleWorld ("myapp")
    (by decide) (by decide) (by decide) (by decide)
  exact ⟨h.1, by rfl, h.2.2⟩

set_option maxRecDepth 10000 in
/-- C4 (counterexample): the name `a/b` is accepted by `new` — no error
is printed and the manifest is written — but the manifest's `name`
field is `b`, the basename, not the supplied name `a/b`. -/
theorem C4_manifest_name_counterexample :
    ((createProject sampleWorld (some ("a/b"))).fs.readFile
      (pathJoin sampleWorld.cwd ("a/b") ++ ["package.json"]) =
      some (generatePackageJson ("b"))) ∧
    (parseJson (generatePackageJson ("b")) = some (packageJsonValue ("b"))) ∧
    ((packageJsonValue ("b")).lookup ("name") = some (.str ("b"))) ∧
    ((createProject sampleWorld (some ("a/b"))).err = []) ∧
    (¬ ("b" : String) = "a/b") := by
  refine ⟨by rfl, by rfl, rfl, by rfl, by decide⟩

/-- C8 (amended): the generated server stub embeds the current working
directory's base name — not the project name — as its cosmetic
identifier; the generated test stub embeds neither: it is one constant
string, identical for every invocation. -/
theorem C8_cwd_basename_quirk (w : World) (name : String)
    (hne : ¬ name = "")
    (hex : existsSync w (pathJoin w.cwd name) = false)
    (hcan : w.fs.canMkdirp (pathJoin w.cwd name) = true) :
    ((createProject w (some name)).fs.readFile
      (pathJoin w.cwd name ++ ["src", "server.js"]) =
      some (generateServerTemplate (basename w.cwd) (dateOnlyOf w.now))) ∧
    (embedsStr (generateServerTemplate (basename w.cwd) (dateOnlyOf w.now))
      (basename w.cwd)) ∧
    ((createProject w (some name)).fs.readFile
      (pathJoin w.cwd name ++ ["tests", "test-server.js"]) =
      some generateTestTemplate) := by
  obtain ⟨-, -, -, -, -, -, h4, h5, -⟩ :=
    createProject_spec w name (pathJoin w.cwd name) rfl hne hex hcan
  exact ⟨h4, generateServerTemplate_embeds _ _, h5⟩

/-- Witness for C8 at a world whose cwd base name differs from the
project name: the server stub embeds the cwd base name. -/
theorem C8_cwd_basename_quirk_witness :
    ((createProject sampleWorldZ (some ("myapp"))).fs.readFile
      (pathJoin sampleWorldZ.cwd ("myapp") ++ ["src", "server.js"]) =
      some (generateServerTemplate ("ZZZbase") (dateOnlyOf sampleWorldZ.now))) ∧
    (embedsStr (generateServerTemplate (basename sampleWorldZ.cwd)
      (dateOnlyOf sampleWorldZ.now)) ("ZZZbase")) := by
  have h := C8_cwd_basename_quirk sampleWorldZ ("myapp")
    (by decide) (by decide) (by decide)
  exact ⟨h.1, h.2.1⟩

set_option maxRecDepth 10000 in
/-- C8 (counterexample): the test stub written by `new myapp` does not
embed the cwd base name (`ZZZbase`) anywhere — the claim's "both the
server stub and the test stub" is wrong for the test stub, which is a
constant template with no interpolation. -/
theorem C8_test_constant_counterexample :
    ((createProject sampleWorldZ (some ("myapp"))).fs.readFile
      (pathJoin sampleWorldZ.cwd ("myapp") ++ ["tests", "test-server.js"]) =
      some generateTestTemplate) ∧
    (basename sampleWorldZ.cwd = "ZZZbase") ∧
    (¬ embedsStr generateTestTemplate ("ZZZbase")) :=
  ⟨by rfl, rfl, not_embedsStr _ _ 'Z' (by decide) (by decide)⟩

/-- C5: the protocol materializer is strictly either/or, decided solely
by the existence of the bundled reference directory.  With a fresh
(empty) target `BestPractices/Generic`: if the bundled directory is
absent, the target's listing afterwards is exactly the four named
protocol documents, each non-empty; if it is present (as a well-formed
directory snapshot), the target's listing afterwards is exactly the
bundled listing, byte for byte — never a mixture. -/
theorem C5_protocol_materializer (w : World) (projectPath : List String)
    (htgt : w.fs.lookup (projectPath ++ ["BestPractices", "Generic"]) =
      some (.dir []))
    (hwf : ∀ items, w.fs.lookup (w.dirname ++ ["..", "BestPractices", "Generic"]) =
      some (.dir items) → wfList items = true)
    (hnf : ∀ c, ¬ w.fs.lookup (w.dirname ++ ["..", "BestPractices", "Generic"]) =
      some (.file c)) :
    ((setupProtocols w projectPath).fs.lookup
        (projectPath ++ ["BestPractices", "Generic"]) =
      some (match w.fs.lookup (w.dirname ++ ["..", "BestPractices", "Generic"]) with
        | some (.dir items) => FsEntry.dir items
        | _ => FsEntry.dir genericProtocolsListing)) ∧
    (genericProtocolsListing.map Prod.fst =
      ["CodeOrganizationFramework.md", "GitWorkflowPatterns.md",
       "DocumentationFramework.md", "ProtocolEvolutionFramework.md"]) ∧
    (genericProtocolsListing.all (fun kv => isNonEmptyDoc kv.2) = true) := by
  have hGen : ((w.fs.lookup (projectPath ++ ["BestPractices", "Generic"])).isSome) = true := by
    rw [htgt]; rfl
  refine ⟨?_, rfl, by rfl⟩
  cases hlk : w.fs.lookup (w.dirname ++ ["..", "BestPractices", "Generic"]) with
  | none =>
    have hsp : existsSync w (pathJoin w.dirname ("../BestPractices/Generic")) = false := by
      simp [existsSync, hlk]
    rw [setupProtocols_absent w projectPath hsp hGen]
    have hs1 : projectPath ++ ["BestPractices", "Generic", "CodeOrganizationFramework.md"] =
        (projectPath ++ ["BestPractices", "Generic"]) ++ ["CodeOrganizationFramework.md"] := by simp
    have hs2 : projectPath ++ ["BestPractices", "Generic", "GitWorkflowPatterns.md"] =
        (projectPath ++ ["BestPractices", "Generic"]) ++ ["GitWorkflowPatterns.md"] := by simp
    have hs3 : projectPath ++ ["BestPractices", "Generic", "DocumentationFramework.md"] =
        (projectPath ++ ["BestPractices", "Generic"]) ++ ["DocumentationFramework.md"] := by simp
    have hs4 : projectPath ++ ["BestPractices", "Generic", "ProtocolEvolutionFramework.md"] =
        (projectPath ++ ["BestPractices", "Generic"]) ++ ["ProtocolEvolutionFramework.md"] := by simp
    rw [hs1, hs2, hs3, hs4]
    rw [writeFile_eq_updateAt _ _ _ _ _ htgt (by simp)]
    rw [step_write htgt _ _ _ (by simp), step_write htgt _ _ _ (by simp),
      step_write htgt _ _ _ (by simp)]
    rw [lookup_updateAt_self _ _ _ _ htgt]
    rfl
  | some e =>
    cases e with
    | file c => exact (hnf c hlk).elim
    | dir items =>
      have hsub : w.fs.lookup (pathJoin w.dirname ("../BestPractices/Generic")) =
          some (.dir items) := by simpa using hlk
      rw [setupProtocols_present_dir w projectPath items hsub hGen]
      rw [copyList_exact (consoleLog w ("📚 Setting up Knowledge Transfer Protocols..."))
        (projectPath ++ ["BestPractices", "Generic"]) items []
        (hwf items hlk) (fun kv _ => rfl) (by simpa using htgt)]
      rw [lookup_updateAt_self _ _ _ _ (by simpa using htgt)]
      simp

/-- Witness for C5 at a world with a fresh target and no bundled
reference directory: the four documents are materialized. -/
theorem C5_protocol_materializer_witness :
    (setupProtocols sampleWorldProto ["p"]).fs.lookup
        (["p"] ++ ["BestPractices", "Generic"]) =
      some (.dir genericProtocolsListing) := by
  have h := C5_protocol_materializer sampleWorldProto ["p"]
    (by rfl) (fun items hh => Option.noConfusion hh) (fun c hh => Option.noConfusion hh)
  exact h.1

/-- C6: `ai prepare`, run from inside a project just created by
`new <name>`, prints — verbatim, between the banner lines — exactly the
content the initializer wrote into `.kt-context/ai-context.md`: the
write round-trips through the read. -/
theorem C6_prepare_roundtrip (w : World) (name : String)
    (hne : ¬ name = "")
    (hex : existsSync w (pathJoin w.cwd name) = false)
    (hcan : w.fs.canMkdirp (pathJoin w.cwd name) = true) :
    ∃ content,
      ((createProject w (some name)).fs.readFile
        (pathJoin w.cwd name ++ [".kt-context", "ai-context.md"]) = some content) ∧
      (content = aiContextTemplate name w.now) ∧
      ((cliMain { createProject w (some name) with cwd := pathJoin w.cwd name }
          ["ai", "prepare"]).out =
        (createProject w (some name)).out ++
          ["🤖 Preparing AI Assistant context...", "",
           "📋 Share this with your AI Assistant:", bannerLine, "",
           "I'm working on a project that uses Knowledge Transfer Protocols.",
           "Please read and understand this context:", "", content, "",
           bannerLine, "", "✅ Copy the above text and share it with your AI assistant"]) := by
  obtain ⟨-, -, -, -, -, -, -, -, -, -, hread, -, -⟩ :=
    createProject_spec w name (pathJoin w.cwd name) rfl hne hex hcan
  refine ⟨aiContextTemplate name w.now, hread, rfl, ?_⟩
  have hcli : cliMain { createProject w (some name) with cwd := pathJoin w.cwd name }
      ["ai", "prepare"] =
      prepareAIContext (ensureConfigDir
        { createProject w (some name) with cwd := pathJoin w.cwd name }) := rfl
  rw [hcli]
  set W := ensureConfigDir
    { createProject w (some name) with cwd := pathJoin w.cwd name } with hW
  have hWread : W.fs.readFile (pathJoin w.cwd name ++ [".kt-context", "ai-context.md"]) =
      some (aiContextTemplate name w.now) := by
    rw [hW, ensureConfigDir_readFile]
    simpa using hread
  have hWcwd : W.cwd = pathJoin w.cwd name := by rw [hW, ensureConfigDir_cwd]
  have hWout : W.out = (createProject w (some name)).out := by
    rw [hW, ensureConfigDir_out]
  have hpath : W.cwd ++ pathComps (".kt-context/ai-context.md") =
      pathJoin w.cwd name ++ [".kt-context", "ai-context.md"] := by
    rw [hWcwd]
    rfl
  have hex2 : existsSync W (pathJoin w.cwd name ++ [".kt-context", "ai-context.md"]) = true := by
    simpa [existsSync] using isSome_of_readFile _ _ _ hWread
  simp only [prepareAIContext]
  rw [hpath, if_pos hex2, hWread]
  simp [hWout, List.append_assoc]

/-- Witness for C6 at a concrete world and name. -/
theorem C6_prepare_roundtrip_witness :
    ∃ content,
      ((createProject sampleWorld (some ("myapp"))).fs.readFile
        (pathJoin sampleWorld.cwd ("myapp") ++ [".kt-context", "ai-context.md"]) =
        some content) ∧
      (content = aiContextTemplate ("myapp") sampleWorld.now) ∧
      ((cliMain { createProject sampleWorld (some ("myapp")) with
            cwd := pathJoin sampleWorld.cwd ("myapp") } ["ai", "prepare"]).out =
        (createProject sampleWorld (some ("myapp"))).out ++
          ["🤖 Preparing AI Assistant context...", "",
           "📋 Share this with your AI Assistant:", bannerLine, "",
           "I'm working on a project that uses Knowledge Transfer Protocols.",
           "Please read and understand this context:", "", content, "",
           bannerLine, "", "✅ Copy the above text and share it with your AI assistant"]) :=
  C6_prepare_roundtrip sampleWorld ("myapp") (by decide) (by decide) (by decide)

end KtCli
